import Mathlib

/-!
# mirage: the container orchestrator of `docker.go`

A shallow embedding of `Docker.Launch`, `Docker.getContainerIDFromSubdomain`,
`Docker.Logs`, `Docker.Terminate`, `ContainerSlice` and `Docker.List`.

* Go strings and byte slices are sequences of bytes, ordered bytewise.
* The container engine (`docker.Client`) is an external system: every call is
  an oracle giving the Go result pair of that call, and every operation
  reports the sequence of engine calls it issued.
* `encoding/json`, `time.Parse` and `bufio.Scanner` are library oracles.
* `MirageStorage` and the reverse proxy are not part of `docker.go`; they are
  modelled from the registry and route-table contracts of the specification.
* Output printed with `fmt.Println` or `fmt.Printf` is not observed.
-/

namespace MirageECS

/-! ## Go values -/

/-- One byte. -/
abbrev Byte := Fin 256

/-- Go `string` and `[]byte`: a sequence of bytes. The order on lists is the
lexicographic one, which is how Go compares strings. -/
abbrev GoString := List Byte

/-- The bytes of a string literal of the source. -/
def str (s : String) : GoString := s.toUTF8.data.toList.map (fun b => b.val)

/-- Go `time.Time`, as seconds and nanoseconds since the Unix epoch. -/
structure Time where
  sec : Int
  nsec : Nat
  deriving DecidableEq, Repr

/-- Go `(t Time) Unix()`. -/
def Time.Unix (t : Time) : Int := t.sec

/-- Go `error` values met by `docker.go`. `ErrNotFound` is the registry's
sentinel, `raised` is any error produced by the engine client, the registry
backend or a library, `Errorf` is `fmt.Errorf` applied to strings only and
`ErrorfErr pre cause` is `fmt.Errorf(pre + "%s", cause)`. -/
inductive GoError where
  | ErrNotFound : GoError
  | raised (msg : GoString) : GoError
  | Errorf (msg : GoString) : GoError
  | ErrorfErr (pre : GoString) (cause : GoError) : GoError
  deriving DecidableEq, Repr

/-- The result of running Go code that may fault at run time (nil pointer
dereference, slice bounds out of range). -/
inductive Outcome (α : Type) where
  | ret (a : α) : Outcome α
  | panicked : Outcome α
  deriving DecidableEq, Repr

/-- Go `map[string]string`. -/
abbrev GoMap := List (GoString × GoString)

/-- Go `m[k]` on a `map[string]string`: the zero value when `k` is absent. -/
def GoMap.index (m : GoMap) (k : GoString) : GoString := (m.lookup k).getD []

/-! ## Data model (`docker.go`, lines 14-28) -/

/-- The `Information` struct. -/
structure Information where
  ID : GoString
  ShortID : GoString
  SubDomain : GoString
  GitBranch : GoString
  Image : GoString
  IPAddress : GoString
  Created : Time
  deriving DecidableEq, Repr

/-- The zero value of `Information` (`var info Information`). -/
def Information.zero : Information :=
  { ID := [], ShortID := [], SubDomain := [], GitBranch := [], Image := [],
    IPAddress := [], Created := { sec := 0, nsec := 0 } }

/-- One entry of `cfg.Parameter`: the option name and the environment variable
it is passed as. -/
structure Parameter where
  Name : GoString
  Env : GoString
  deriving DecidableEq, Repr

/-- The fields of `docker.HostConfig` read by `Launch`: the keys of
`PortBindings`. -/
structure HostConfig where
  PortBindings : List GoString
  deriving DecidableEq, Repr

/-- The fields of `Config` read by `docker.go`: `cfg.Parameter` and the pointer
`cfg.Docker.HostConfig`, `none` when it is nil. -/
structure Config where
  Parameter : List Parameter
  HostConfig : Option HostConfig
  deriving DecidableEq, Repr

/-- The `docker.Config` part of the creation options. `ExposedPorts` is the key
set of a Go map, `none` when the map was never made. -/
structure ContainerConfig where
  Image : GoString
  Env : List GoString
  ExposedPorts : Option (List GoString)
  deriving DecidableEq, Repr

/-- Go `docker.CreateContainerOptions`; `HostConfig` is a pointer. -/
structure CreateContainerOptions where
  Name : GoString
  Config : ContainerConfig
  HostConfig : Option HostConfig
  deriving DecidableEq, Repr

/-- Go `docker.NetworkSettings`, the field read by `Launch`. -/
structure NetworkSettings where
  IPAddress : GoString
  deriving DecidableEq, Repr

/-- Go `docker.Container`, the fields read by `Launch`; `NetworkSettings` is a
pointer, `none` when it is nil. -/
structure Container where
  ID : GoString
  NetworkSettings : Option NetworkSettings
  Created : Time
  deriving DecidableEq, Repr

/-- Go `docker.APIContainers`, one entry of the engine's container list. -/
structure APIContainers where
  ID : GoString
  Image : GoString
  deriving DecidableEq, Repr

/-- Go `docker.LogsOptions` as filled in by `Logs`; both streams are the one
buffer. -/
structure LogsOptions where
  Container : GoString
  Tail : GoString
  Since : Int
  deriving DecidableEq, Repr

/-- A call made to the container engine. -/
inductive Call where
  | create (opt : CreateContainerOptions) : Call
  | start (id : GoString) : Call
  | inspect (id : GoString) : Call
  | stop (id : GoString) (timeout : Nat) : Call
  | list : Call
  | logs (opt : LogsOptions) : Call
  deriving DecidableEq, Repr

/-- The engine client `docker.Client`: what each call answers. A call that
returns `(*T, error)` answers a pair of a possibly nil pointer and a possibly
nil error; `Logs` answers what it wrote to the buffer and its error. -/
structure Client where
  CreateContainer : CreateContainerOptions → Option Container × Option GoError
  StartContainer : GoString → Option GoError
  InspectContainer : GoString → Option Container × Option GoError
  StopContainer : GoString → Nat → Option GoError
  ListContainers : List APIContainers × Option GoError
  Logs : LogsOptions → GoString × Option GoError

/-- Library functions used by `docker.go`: `json.Marshal` on an `Information`
(the bytes it returns), `json.Unmarshal` into a zero `Information` (the value
left in it, whatever the error), `time.Parse(time.RFC3339, _)` and the lines
and final error of a `bufio.Scanner` over a buffer. -/
structure Stdlib where
  jsonMarshal : Information → GoString
  jsonUnmarshal : GoString → Information
  timeParse : GoString → Time × Option GoError
  scanLines : GoString → List GoString × Option GoError

/-! ## Registry and route table -/

/-- The registry key of a subdomain: `fmt.Sprintf("subdomain:%s", subdomain)`. -/
def subdomainKey (subdomain : GoString) : GoString := str "subdomain:" ++ subdomain

/-- Modelled from the spec: `MirageStorage`, which is declared outside
`docker.go` and `mirage.go`, following the registry contract `Get(key) -> bytes |
NotFoundError`, `Set(key, bytes) -> ok | error` and a membership index of the
active subdomains. `records` is the record store, `subdomainMap` the
membership index and `fault` the error with which the backend refuses a write,
if it does. -/
structure MirageStorage where
  records : List (GoString × GoString)
  subdomainMap : List GoString
  fault : Option GoError
  deriving DecidableEq, Repr

/-- Modelled from the spec: `MirageStorage.Get`, the bytes stored under `key`
or `ErrNotFound`. -/
def MirageStorage.Get (ms : MirageStorage) (key : GoString) : GoString × Option GoError :=
  match ms.records.lookup key with
  | some data => (data, none)
  | none => ([], some GoError.ErrNotFound)

/-- Modelled from the spec: `MirageStorage.Set`, which replaces what is stored
under `key`, or fails and stores nothing. -/
def MirageStorage.Set (ms : MirageStorage) (key data : GoString) : Option GoError × MirageStorage :=
  match ms.fault with
  | some err => (some err, ms)
  | none => (none, { ms with records := ms.records.filter (fun kv => kv.1 ≠ key) ++ [(key, data)] })

/-- Modelled from the spec: `MirageStorage.AddToSubdomainMap`, adding a
subdomain to the membership index (a set: adding a member changes nothing). -/
def MirageStorage.AddToSubdomainMap (ms : MirageStorage) (subdomain : GoString) : MirageStorage :=
  if subdomain ∈ ms.subdomainMap then ms
  else { ms with subdomainMap := ms.subdomainMap ++ [subdomain] }

/-- Modelled from the spec: `MirageStorage.RemoveFromSubdomainMap`, the one
registry call of `Terminate`. The specification (sections 3 and 4.2) has
`Terminate` remove the subdomain from the membership index and its record from
the record store, so this call does both. -/
def MirageStorage.RemoveFromSubdomainMap (ms : MirageStorage) (subdomain : GoString) : MirageStorage :=
  { ms with
    subdomainMap := ms.subdomainMap.filter (fun s => s ≠ subdomain)
    records := ms.records.filter (fun kv => kv.1 ≠ subdomainKey subdomain) }

/-- Modelled from the spec: `MirageStorage.GetSubdomainList`, the membership
index in its order. -/
def MirageStorage.GetSubdomainList (ms : MirageStorage) : List GoString × Option GoError :=
  (ms.subdomainMap, none)

/-- Modelled from the spec: the route table `app.ReverseProxy`, which is
declared outside `docker.go` and `mirage.go`, binding subdomains to backend
addresses. -/
structure ReverseProxy where
  domains : List (GoString × GoString)
  deriving DecidableEq, Repr

/-- Modelled from the spec: `ReverseProxy.AddSubdomain`, binding `subdomain` to
`ipaddress` in place of any earlier binding. -/
def ReverseProxy.AddSubdomain (r : ReverseProxy) (subdomain ipaddress : GoString) : ReverseProxy :=
  { domains := r.domains.filter (fun kv => kv.1 ≠ subdomain) ++ [(subdomain, ipaddress)] }

/-- Modelled from the spec: `ReverseProxy.RemoveSubdomain`, unbinding
`subdomain`. -/
def ReverseProxy.RemoveSubdomain (r : ReverseProxy) (subdomain : GoString) : ReverseProxy :=
  { domains := r.domains.filter (fun kv => kv.1 ≠ subdomain) }

/-- The address a subdomain is bound to in the route table, if any. -/
def ReverseProxy.resolve (r : ReverseProxy) (subdomain : GoString) : Option GoString :=
  r.domains.lookup subdomain

/-- The state shared by the operations: the registry `d.Storage` and the route
table `app.ReverseProxy`. -/
structure App where
  Storage : MirageStorage
  ReverseProxy : ReverseProxy
  deriving DecidableEq, Repr

/-- What one operation did: its result (or a fault), the state it left and the
engine calls it issued, in order. -/
structure Run (α : Type) where
  result : Outcome α
  app : App
  calls : List Call

/-- The `Docker` struct: configuration and engine client (the storage is in
`App`). -/
structure Docker where
  cfg : Config
  Client : Client


/-! ## `Docker.Launch` (lines 45-121) -/

/-- Go's slice expression `s[lo:hi]` on a string: a fault unless
`lo <= hi <= len(s)`. -/
def goSlice (s : GoString) (lo hi : Nat) : Option GoString :=
  if lo ≤ hi ∧ hi ≤ s.length then some ((s.drop lo).take (hi - lo)) else none

/-- Lines 46-54: the environment list `dockerEnv`. -/
def launchEnv (parameter : List Parameter) (option : GoMap) (subdomain : GoString) : List GoString :=
  let dockerEnv := parameter.foldl
    (fun dockerEnv v =>
      if option.index v.Name = [] then dockerEnv
      else dockerEnv ++ [v.Env ++ str "=" ++ option.index v.Name])
    []
  dockerEnv ++ [str "SUBDOMAIN=" ++ subdomain]

/-- Lines 56-72: the creation options `opt`, with the exposed ports filled in
from the port bindings; `none` when `opt.HostConfig.PortBindings` at line 66
faults on a nil `HostConfig`. -/
def launchOptions (cfg : Config) (subdomain image name : GoString) (option : GoMap) :
    Option CreateContainerOptions :=
  match cfg.HostConfig with
  | none => none
  | some hostConfig =>
    some
      { Name := name
        Config :=
          { Image := image
            Env := launchEnv cfg.Parameter option subdomain
            ExposedPorts :=
              if hostConfig.PortBindings.length ≠ 0 then some hostConfig.PortBindings
              else none }
        HostConfig := some hostConfig }

/-- Lines 123-138: `getContainerIDFromSubdomain`. Both error branches return
the empty string; the decoding error of `json.Unmarshal` is dropped. -/
def getContainerIDFromSubdomain (lib : Stdlib) (subdomain : GoString) (ms : MirageStorage) :
    GoString :=
  match ms.Get (subdomainKey subdomain) with
  | (_, some err) => if err = GoError.ErrNotFound then [] else []
  | (data, none) => (lib.jsonUnmarshal data).ID

/-- Lines 99-107: the `Information` literal built from the inspected
container, `none` when building it faults (nil `container`,
`container.ID[0:12]` out of range, or nil `container.NetworkSettings`). -/
def launchInfo (container : Option Container) (subdomain image : GoString) (option : GoMap) :
    Option Information :=
  match container with
  | none => none
  | some c =>
    match goSlice c.ID 0 12 with
    | none => none
    | some shortID =>
      match c.NetworkSettings with
      | none => none
      | some networkSettings =>
        some
          { ID := c.ID
            ShortID := shortID
            SubDomain := subdomain
            GitBranch := option.index (str "branch")
            Image := image
            IPAddress := networkSettings.IPAddress
            Created := c.Created }

/-- The method `Docker.Launch`. -/
def Docker.Launch (lib : Stdlib) (d : Docker) (app : App) (subdomain image name : GoString)
    (option : GoMap) : Run (Option GoError) :=
  match launchOptions d.cfg subdomain image name option with
  | none => { result := .panicked, app := app, calls := [] }
  | some opt =>
    match d.Client.CreateContainer opt with
    | (_, some err) => { result := .ret (some err), app := app, calls := [.create opt] }
    | (none, none) => { result := .panicked, app := app, calls := [.create opt] }
    | (some created, none) =>
      match d.Client.StartContainer created.ID with
      | some err =>
        { result := .ret (some err), app := app, calls := [.create opt, .start created.ID] }
      | none =>
        -- line 86: the error of InspectContainer is assigned and never read
        let container := (d.Client.InspectContainer created.ID).1
        let ms := app.Storage
        let oldContainerID := getContainerIDFromSubdomain lib subdomain ms
        let calls : List Call :=
          [.create opt, .start created.ID, .inspect created.ID] ++
            (if oldContainerID ≠ [] then [.stop oldContainerID 5] else [])
        match launchInfo container subdomain image option with
        | none => { result := .panicked, app := app, calls := calls }
        | some info =>
          let infoData := lib.jsonMarshal info
          match ms.Set (subdomainKey subdomain) infoData with
          | (some err, ms1) =>
            { result := .ret (some err), app := { app with Storage := ms1 }, calls := calls }
          | (none, ms1) =>
            { result := .ret none
              app :=
                { Storage := ms1.AddToSubdomainMap subdomain
                  ReverseProxy := app.ReverseProxy.AddSubdomain subdomain info.IPAddress }
              calls := calls }

/-! ## `Docker.Logs` (lines 140-181) -/

/-- The method `Docker.Logs`; the result is the Go pair `([]string, error)`. -/
def Docker.Logs (lib : Stdlib) (d : Docker) (app : App) (subdomain since tail : GoString) :
    Run (Option (List GoString) × Option GoError) :=
  let parsed : Except GoError Int :=
    if since ≠ [] then
      match lib.timeParse since with
      | (_, some err) => .error (GoError.ErrorfErr (str "cannot parse since: ") err)
      | (t, none) => .ok t.Unix
    else .ok 0
  match parsed with
  | .error err => { result := .ret (none, some err), app := app, calls := [] }
  | .ok parsedSince =>
    let containerID := getContainerIDFromSubdomain lib subdomain app.Storage
    if containerID = [] then
      { result := .ret (none, some (GoError.Errorf (str "subdomain=" ++ subdomain ++ str " is not found")))
        app := app, calls := [] }
    else
      let opt : LogsOptions := { Container := containerID, Tail := tail, Since := parsedSince }
      match d.Client.Logs opt with
      | (_, some err) =>
        { result := .ret (none, some (GoError.ErrorfErr (str "fail to output logs ") err))
          app := app, calls := [.logs opt] }
      | (buf, none) =>
        match lib.scanLines buf with
        | (_, some err) =>
          { result := .ret (none, some (GoError.ErrorfErr (str "fail to scan outputs of log: ") err))
            app := app, calls := [.logs opt] }
        | (logs, none) => { result := .ret (some logs, none), app := app, calls := [.logs opt] }

/-! ## `Docker.Terminate` (lines 183-197) -/

/-- The method `Docker.Terminate`. -/
def Docker.Terminate (lib : Stdlib) (d : Docker) (app : App) (subdomain : GoString) :
    Run (Option GoError) :=
  let ms := app.Storage
  let containerID := getContainerIDFromSubdomain lib subdomain ms
  match d.Client.StopContainer containerID 5 with
  | some err => { result := .ret (some err), app := app, calls := [.stop containerID 5] }
  | none =>
    { result := .ret none
      app :=
        { Storage := ms.RemoveFromSubdomainMap subdomain
          ReverseProxy := app.ReverseProxy.RemoveSubdomain subdomain }
      calls := [.stop containerID 5] }

/-! ## `ContainerSlice` and `Docker.List` (lines 199-243) -/

/-- The type `ContainerSlice`. -/
abbrev ContainerSlice := List APIContainers

/-- The method `ContainerSlice.Len`. -/
def ContainerSlice.Len (c : ContainerSlice) : Nat := c.length

/-- The method `ContainerSlice.Less`, on the two elements it indexes. -/
def ContainerSlice.Less (a b : APIContainers) : Prop := a.ID < b.ID

instance : DecidableRel ContainerSlice.Less := fun a b => inferInstanceAs (Decidable (a.ID < b.ID))

/-- Go `sort.Sort(ContainerSlice(containers))`: the slice rearranged so that no
element is `Less` than one before it. The library's algorithm is not stable;
insertion sort stands for it, and `List` reads only the `ID`s, whose sorted
sequence does not depend on how ties are placed. -/
def sortSort (c : ContainerSlice) : ContainerSlice :=
  c.insertionSort (fun a b => ¬ ContainerSlice.Less b a)

/-- The loop of Go `sort.Search`: `for i < j { h := (i+j)/2; if !f(h) { i = h+1 }
else { j = h } }; return i`. The first argument bounds the number of
iterations; `j - i` of them are always enough. -/
def searchLoop (f : Nat → Bool) : Nat → Nat → Nat → Nat
  | 0, i, _ => i
  | fuel + 1, i, j =>
    if i < j then
      let h := (i + j) / 2
      if !f h then searchLoop f fuel (h + 1) j else searchLoop f fuel i h
    else i

/-- Go `sort.Search(n, f)`. -/
def sortSearch (n : Nat) (f : Nat → Bool) : Nat := searchLoop f n 0 n

/-- Lines 234-236: whether the binary search over the sorted `containers`
finds a container whose `ID` is `id`. -/
def foundIn (containers : ContainerSlice) (id : GoString) : Bool :=
  let index := sortSearch containers.length
    (fun i => match containers[i]? with
      | some c => decide (c.ID ≥ id)
      | none => false)
  match containers[index]? with
  | some c => decide (index < containers.length) && decide (c.ID = id)
  | none => false

/-- Lines 223-240: one iteration of the loop over `subdomainList`. -/
def listStep (lib : Stdlib) (ms : MirageStorage) (containers : ContainerSlice)
    (result : List Information) (subdomain : GoString) : List Information :=
  match ms.Get (subdomainKey subdomain) with
  | (_, some _) => result
  | (infoData, none) =>
    let info := lib.jsonUnmarshal infoData
    if foundIn containers info.ID then result ++ [info] else result

/-- The method `Docker.List`; the result is the Go pair `([]Information, error)`. -/
def Docker.List (lib : Stdlib) (d : Docker) (app : App) :
    Run (Option (List Information) × Option GoError) :=
  let ms := app.Storage
  match ms.GetSubdomainList with
  | (_, some err) => { result := .ret (none, some err), app := app, calls := [] }
  | (subdomainList, none) =>
    let containers := sortSort d.Client.ListContainers.1
    let result := subdomainList.foldl (listStep lib ms containers) []
    { result := .ret (some result, none), app := app, calls := [.list] }

/-! ## Statements in the specification's words -/

/-- The record of a registered subdomain, when the registry yields one. -/
def fetchRecord (lib : Stdlib) (ms : MirageStorage) (subdomain : GoString) : Option Information :=
  match ms.Get (subdomainKey subdomain) with
  | (_, some _) => none
  | (data, none) => some (lib.jsonUnmarshal data)

/-- The reconciled view in the specification's words: the records of the
membership index, in its order, whose `ID` is the `ID` of an engine container. -/
def reconciled (lib : Stdlib) (ms : MirageStorage) (engine : List APIContainers) :
    List Information :=
  (ms.subdomainMap.filterMap (fetchRecord lib ms)).filter
    (fun info => decide (info.ID ∈ engine.map APIContainers.ID))

/-- The record the specification expects a successful `Launch` to persist for
the inspected container and its network settings: `shortId` is the first 12
bytes of `id`. -/
def expectedRecord (container : Container) (networkSettings : NetworkSettings)
    (subdomain image : GoString) (option : GoMap) : Information :=
  { ID := container.ID
    ShortID := container.ID.take 12
    SubDomain := subdomain
    GitBranch := option.index (str "branch")
    Image := image
    IPAddress := networkSettings.IPAddress
    Created := container.Created }

/-- The environment list in the specification's words: one `Env=value` entry
for each configured parameter with a non-empty value in `option`, in the order
of the configuration, then `SUBDOMAIN=<subdomain>`. -/
def expectedEnv (parameter : List Parameter) (option : GoMap) (subdomain : GoString) :
    List GoString :=
  ((parameter.filter (fun v => decide (option.index v.Name ≠ []))).map
      (fun v => v.Env ++ str "=" ++ option.index v.Name)) ++
    [str "SUBDOMAIN=" ++ subdomain]

/-- States of a registry that starts without records and is then used only
through `Launch` and `Terminate` (which alone change the state), while the
backend may start or stop refusing writes. -/
inductive WrittenByLaunch (lib : Stdlib) : App → Prop where
  | init (app : App) (h : app.Storage.records = []) : WrittenByLaunch lib app
  | launch (d : Docker) (app : App) (subdomain image name : GoString) (option : GoMap)
      (h : WrittenByLaunch lib app) :
      WrittenByLaunch lib (Docker.Launch lib d app subdomain image name option).app
  | terminate (d : Docker) (app : App) (subdomain : GoString) (h : WrittenByLaunch lib app) :
      WrittenByLaunch lib (Docker.Terminate lib d app subdomain).app
  | backend (app : App) (fault : Option GoError) (h : WrittenByLaunch lib app) :
      WrittenByLaunch lib { app with Storage := { app.Storage with fault := fault } }

/-- The engine calls of a `Launch` that gets past create and start. -/
def launchCalls (lib : Stdlib) (app : App) (subdomain : GoString)
    (opt : CreateContainerOptions) (created : Container) : List Call :=
  [.create opt, .start created.ID, .inspect created.ID] ++
    (if getContainerIDFromSubdomain lib subdomain app.Storage ≠ [] then
      [.stop (getContainerIDFromSubdomain lib subdomain app.Storage) 5]
    else [])

/-- Every stored record is the encoding of a record whose `ShortID` is the
first 12 bytes of its `ID`. -/
def RecordsEncoded (lib : Stdlib) (ms : MirageStorage) : Prop :=
  ∀ k data, (k, data) ∈ ms.records →
    ∃ info : Information, data = lib.jsonMarshal info ∧ info.ShortID = info.ID.take 12

/-! ## Sample inputs -/

/-- A codec that keeps only the `ID` of a record. -/
def idCodec : Stdlib :=
  { jsonMarshal := fun info => info.ID
    jsonUnmarshal := fun data => { Information.zero with ID := data }
    timeParse := fun _ => ({ sec := 0, nsec := 0 }, none)
    scanLines := fun buf => ([buf], none) }

/-- The fields of a record as a tuple. -/
def Information.toTuple (i : Information) :
    GoString × GoString × GoString × GoString × GoString × GoString × Int × Nat :=
  (i.ID, i.ShortID, i.SubDomain, i.GitBranch, i.Image, i.IPAddress, i.Created.sec, i.Created.nsec)

/-- The record with the fields of a tuple. -/
def Information.ofTuple
    (t : GoString × GoString × GoString × GoString × GoString × GoString × Int × Nat) :
    Information :=
  { ID := t.1, ShortID := t.2.1, SubDomain := t.2.2.1, GitBranch := t.2.2.2.1,
    Image := t.2.2.2.2.1, IPAddress := t.2.2.2.2.2.1,
    Created := { sec := t.2.2.2.2.2.2.1, nsec := t.2.2.2.2.2.2.2 } }

instance : Encodable Information :=
  Encodable.ofLeftInverse Information.toTuple Information.ofTuple (fun _ => rfl)

/-- A codec that loses nothing: a record is written as a run of zero bytes
whose length numbers the record. -/
def losslessCodec : Stdlib :=
  { jsonMarshal := fun info => List.replicate (Encodable.encode info) 0
    jsonUnmarshal := fun data => (Encodable.decode data.length).getD Information.zero
    timeParse := fun _ => ({ sec := 0, nsec := 0 }, none)
    scanLines := fun buf => ([buf], none) }

/-- A container with a 16-byte identifier. -/
def sampleContainer : Container :=
  { ID := str "0123456789abcdef"
    NetworkSettings := some { IPAddress := str "10.0.0.2" }
    Created := { sec := 5, nsec := 0 } }

/-- A second container. -/
def otherContainer : Container :=
  { ID := str "fedcba9876543210"
    NetworkSettings := some { IPAddress := str "10.0.0.3" }
    Created := { sec := 9, nsec := 0 } }

/-- A container whose identifier has 3 bytes. -/
def tinyContainer : Container :=
  { ID := str "abc"
    NetworkSettings := some { IPAddress := str "10.0.0.4" }
    Created := { sec := 7, nsec := 0 } }

/-- A container with a 16-byte identifier and no network settings. -/
def bareContainer : Container :=
  { ID := str "0123456789abcdef"
    NetworkSettings := none
    Created := { sec := 6, nsec := 0 } }

/-- A container whose identifier has 11 bytes. -/
def elevenContainer : Container :=
  { ID := str "0123456789a"
    NetworkSettings := some { IPAddress := str "10.0.0.5" }
    Created := { sec := 8, nsec := 0 } }

/-- An engine on which every call succeeds and that creates and inspects the
given container. -/
def engineWith (c : Container) (containers : List APIContainers) : Client :=
  { CreateContainer := fun _ => (some c, none)
    StartContainer := fun _ => none
    InspectContainer := fun _ => (some c, none)
    StopContainer := fun _ _ => none
    ListContainers := (containers, none)
    Logs := fun _ => ([], none) }

/-- An engine that creates and starts the given container and then fails to
inspect it, as the client does: no container, and an error. -/
def engineInspectFailing (c : Container) : Client :=
  { engineWith c [] with
    InspectContainer := fun _ => (none, some (GoError.raised (str "inspect failed"))) }

/-- An engine that refuses to stop any container. -/
def engineStopFailing (c : Container) : Client :=
  { engineWith c [] with
    StopContainer := fun _ _ => some (GoError.raised (str "stop failed")) }

/-- A configuration with one parameter, `branch`, passed as `GIT_BRANCH`. -/
def sampleConfig : Config :=
  { Parameter := [{ Name := str "branch", Env := str "GIT_BRANCH" }]
    HostConfig := some { PortBindings := [] } }

/-- The creation options `Launch` builds under `sampleConfig`. -/
def sampleOptions (subdomain image name : GoString) (option : GoMap) : CreateContainerOptions :=
  { Name := name
    Config :=
      { Image := image
        Env := launchEnv sampleConfig.Parameter option subdomain
        ExposedPorts := none }
    HostConfig := some { PortBindings := [] } }

/-- An orchestrator over `engineWith`. -/
def dockerWith (c : Container) (containers : List APIContainers) : Docker :=
  { cfg := sampleConfig, Client := engineWith c containers }

/-- The state of a fresh system. -/
def freshApp : App :=
  { Storage := { records := [], subdomainMap := [], fault := none }
    ReverseProxy := { domains := [] } }

/-- The state in which `app1` is registered with `sampleContainer` (under
`idCodec`) and routed to it. -/
def registeredApp : App :=
  { Storage :=
      { records := [(subdomainKey (str "app1"), sampleContainer.ID)]
        subdomainMap := [str "app1"]
        fault := none }
    ReverseProxy := { domains := [(str "app1", str "10.0.0.2")] } }

/-! ## Binary search -/

theorem searchLoop_spec (f : Nat → Bool) (n : Nat)
    (hmono : ∀ a b, a ≤ b → b < n → f a = true → f b = true) :
    ∀ fuel i j, i ≤ j → j ≤ n → j - i ≤ fuel →
      (∀ k, k < i → f k = false) → (∀ k, j ≤ k → k < n → f k = true) →
      i ≤ searchLoop f fuel i j ∧ searchLoop f fuel i j ≤ j ∧
        (∀ k, k < searchLoop f fuel i j → f k = false) ∧
        (∀ k, searchLoop f fuel i j ≤ k → k < n → f k = true) := by
  intro fuel
  induction fuel with
  | zero =>
    intro i j hij hjn hfuel hlo hhi
    have hji : j = i := by omega
    subst hji
    simp only [searchLoop]
    exact ⟨le_refl _, le_refl _, hlo, hhi⟩
  | succ fuel ih =>
    intro i j hij hjn hfuel hlo hhi
    unfold searchLoop
    by_cases hlt : i < j
    · simp only [hlt, if_true]
      have hh1 : i ≤ (i + j) / 2 := by omega
      have hh2 : (i + j) / 2 < j := by omega
      cases hf : f ((i + j) / 2) with
      | false =>
        simp only [Bool.not_false, if_true]
        have hlo2 : ∀ k, k < (i + j) / 2 + 1 → f k = false := by
          intro k hk
          cases hfk : f k with
          | false => rfl
          | true =>
            have := hmono k ((i + j) / 2) (by omega) (by omega) hfk
            rw [hf] at this
            exact absurd this (by decide)
        obtain ⟨h1, h2, h3, h4⟩ := ih ((i + j) / 2 + 1) j (by omega) hjn (by omega) hlo2 hhi
        exact ⟨by omega, h2, h3, h4⟩
      | true =>
        simp only [Bool.not_true, Bool.false_eq_true, if_false]
        have hhi2 : ∀ k, (i + j) / 2 ≤ k → k < n → f k = true := by
          intro k hk hkn
          exact hmono _ k hk hkn hf
        obtain ⟨h1, h2, h3, h4⟩ := ih i ((i + j) / 2) hh1 (by omega) (by omega) hlo hhi2
        exact ⟨h1, by omega, h3, h4⟩
    · simp only [hlt, if_false]
      have hji : j = i := by omega
      subst hji
      exact ⟨le_refl _, le_refl _, hlo, hhi⟩

/-- The bound on the iterations never cuts the loop short: any two bounds of
at least `j - i` give the same result. -/
theorem searchLoop_bound_irrelevant (f : Nat → Bool) :
    ∀ fuel1 fuel2 i j, j - i ≤ fuel1 → j - i ≤ fuel2 →
      searchLoop f fuel1 i j = searchLoop f fuel2 i j := by
  intro fuel1
  induction fuel1 with
  | zero =>
    intro fuel2 i j h1 _
    cases fuel2 with
    | zero => rfl
    | succ m =>
      have hij : ¬ i < j := by omega
      simp only [searchLoop, hij, if_false]
  | succ n ih =>
    intro fuel2 i j h1 h2
    cases fuel2 with
    | zero =>
      have hij : ¬ i < j := by omega
      simp only [searchLoop, hij, if_false]
    | succ m =>
      unfold searchLoop
      by_cases hij : i < j
      · simp only [hij, if_true]
        cases f ((i + j) / 2) with
        | false =>
          simp only [Bool.not_false, if_true]
          exact ih m ((i + j) / 2 + 1) j (by omega) (by omega)
        | true =>
          simp only [Bool.not_true, Bool.false_eq_true, if_false]
          exact ih m i ((i + j) / 2) (by omega) (by omega)
      · simp only [hij, if_false]

theorem sortSearch_spec (f : Nat → Bool) (n : Nat)
    (hmono : ∀ a b, a ≤ b → b < n → f a = true → f b = true) :
    sortSearch n f ≤ n ∧ (∀ k, k < sortSearch n f → f k = false) ∧
      (∀ k, sortSearch n f ≤ k → k < n → f k = true) := by
  obtain ⟨_, h2, h3, h4⟩ := searchLoop_spec f n hmono n 0 n (Nat.zero_le _) (le_refl _)
    (by omega) (fun k hk => absurd hk (Nat.not_lt_zero k)) (fun k hk hkn => absurd hkn (by omega))
  exact ⟨h2, h3, h4⟩

/-- On a slice sorted by `ID`, the search of `List` finds exactly the `ID`s
that occur in the slice. -/
theorem foundIn_sorted (containers : ContainerSlice) (id : GoString)
    (hsorted : containers.Sorted (fun a b => a.ID ≤ b.ID)) :
    foundIn containers id = true ↔ id ∈ containers.map APIContainers.ID := by
  have hpw : ∀ (a b : Nat) (ha : a < containers.length) (hb : b < containers.length),
      a ≤ b → (containers[a]).ID ≤ (containers[b]).ID := by
    intro a b ha hb hab
    rcases Nat.lt_or_eq_of_le hab with hlt | heq
    · exact (List.pairwise_iff_getElem.mp hsorted) a b ha hb hlt
    · subst heq; exact le_refl _
  set f : Nat → Bool := fun i =>
    match containers[i]? with
    | some c => decide (c.ID ≥ id)
    | none => false with hf
  have hfval : ∀ k (hk : k < containers.length), f k = decide ((containers[k]).ID ≥ id) := by
    intro k hk
    simp only [hf, List.getElem?_eq_getElem hk]
  have hmono : ∀ a b, a ≤ b → b < containers.length → f a = true → f b = true := by
    intro a b hab hb hfa
    have ha : a < containers.length := lt_of_le_of_lt hab hb
    rw [hfval a ha] at hfa
    rw [hfval b hb]
    have h1 : id ≤ (containers[a]).ID := of_decide_eq_true hfa
    exact decide_eq_true (le_trans h1 (hpw a b ha hb hab))
  obtain ⟨hle, hlow, hhigh⟩ := sortSearch_spec f containers.length hmono
  have hfound : foundIn containers id =
      match containers[sortSearch containers.length f]? with
      | some c => decide (sortSearch containers.length f < containers.length) && decide (c.ID = id)
      | none => false := rfl
  rw [hfound]
  constructor
  · intro h
    by_cases hr : sortSearch containers.length f < containers.length
    · rw [List.getElem?_eq_getElem hr] at h
      simp only [Bool.and_eq_true, decide_eq_true_eq] at h
      exact List.mem_map.mpr ⟨_, List.getElem_mem hr, h.2⟩
    · rw [List.getElem?_eq_none (by omega)] at h
      simp at h
  · intro h
    obtain ⟨c, hc, hcid⟩ := List.mem_map.mp h
    obtain ⟨k, hk, hkc⟩ := List.getElem_of_mem hc
    have hfk : f k = true := by
      rw [hfval k hk, hkc, hcid]
      exact decide_eq_true (le_refl _)
    have hrk : sortSearch containers.length f ≤ k := by
      by_contra hcon
      have := hlow k (by omega)
      rw [hfk] at this
      exact absurd this (by decide)
    have hr : sortSearch containers.length f < containers.length := lt_of_le_of_lt hrk hk
    have hfr := hhigh _ (le_refl _) hr
    rw [hfval _ hr] at hfr
    have h1 : id ≤ (containers[sortSearch containers.length f]).ID := of_decide_eq_true hfr
    have h2 := hpw _ k hr hk hrk
    rw [hkc, hcid] at h2
    rw [List.getElem?_eq_getElem hr]
    simp only [Bool.and_eq_true, decide_eq_true_eq]
    exact ⟨hr, le_antisymm h2 h1⟩

theorem sortSort_perm (c : ContainerSlice) : (sortSort c).Perm c :=
  List.perm_insertionSort _ c

theorem sortSort_sorted (c : ContainerSlice) :
    (sortSort c).Sorted (fun a b => a.ID ≤ b.ID) := by
  haveI : IsTotal APIContainers (fun a b => ¬ ContainerSlice.Less b a) :=
    ⟨fun a b => by
      unfold ContainerSlice.Less
      rcases le_total a.ID b.ID with h | h
      · exact Or.inl (not_lt.mpr h)
      · exact Or.inr (not_lt.mpr h)⟩
  haveI : IsTrans APIContainers (fun a b => ¬ ContainerSlice.Less b a) :=
    ⟨fun a b c hab hbc => by
      unfold ContainerSlice.Less at *
      exact not_lt.mpr (le_trans (not_lt.mp hab) (not_lt.mp hbc))⟩
  have h := List.sorted_insertionSort (fun a b => ¬ ContainerSlice.Less b a) c
  refine List.Pairwise.imp ?_ h
  intro a b hab
  exact not_lt.mp hab

/-- Sorting the engine's list and searching it decides membership of an `ID`
in the list as the engine gave it. -/
theorem foundIn_sortSort (engine : List APIContainers) (id : GoString) :
    foundIn (sortSort engine) id = decide (id ∈ engine.map APIContainers.ID) := by
  have h := foundIn_sorted (sortSort engine) id (sortSort_sorted engine)
  have hperm : id ∈ (sortSort engine).map APIContainers.ID ↔ id ∈ engine.map APIContainers.ID :=
    ((sortSort_perm engine).map APIContainers.ID).mem_iff
  rw [hperm] at h
  by_cases hmem : id ∈ engine.map APIContainers.ID
  · rw [h.mpr hmem, decide_eq_true hmem]
  · rw [decide_eq_false hmem]
    cases hfi : foundIn (sortSort engine) id with
    | false => rfl
    | true => exact absurd (h.mp hfi) hmem

/-- The outcome of the search does not depend on how the library sorts: any
rearrangement of the engine's list that is sorted by `Less` gives the same
answer as `sortSort`. -/
theorem foundIn_of_sorted_perm (engine sorted : List APIContainers) (id : GoString)
    (hperm : sorted.Perm engine)
    (hsorted : sorted.Sorted (fun a b => ¬ ContainerSlice.Less b a)) :
    foundIn sorted id = foundIn (sortSort engine) id := by
  have hle : sorted.Sorted (fun a b => a.ID ≤ b.ID) :=
    List.Pairwise.imp (fun hab => not_lt.mp hab) hsorted
  have h := foundIn_sorted sorted id hle
  have hmem : id ∈ sorted.map APIContainers.ID ↔ id ∈ engine.map APIContainers.ID :=
    (hperm.map APIContainers.ID).mem_iff
  rw [hmem] at h
  rw [foundIn_sortSort]
  by_cases hin : id ∈ engine.map APIContainers.ID
  · rw [h.mpr hin, decide_eq_true hin]
  · rw [decide_eq_false hin]
    cases hfi : foundIn sorted id with
    | false => rfl
    | true => exact absurd (h.mp hfi) hin

theorem listLoop_eq (lib : Stdlib) (ms : MirageStorage) (engine : List APIContainers) :
    ∀ (subdomainList : List GoString) (acc : List Information),
      subdomainList.foldl (listStep lib ms (sortSort engine)) acc =
        acc ++ (subdomainList.filterMap (fetchRecord lib ms)).filter
          (fun info => decide (info.ID ∈ engine.map APIContainers.ID)) := by
  intro subdomainList
  induction subdomainList with
  | nil => intro acc; simp
  | cons s rest ih =>
    intro acc
    rw [List.foldl_cons, ih]
    rcases hget : ms.Get (subdomainKey s) with ⟨data, err⟩
    cases err with
    | some e =>
      have hfetch : fetchRecord lib ms s = none := by simp only [fetchRecord, hget]
      have hstep : listStep lib ms (sortSort engine) acc s = acc := by simp only [listStep, hget]
      rw [hstep, List.filterMap_cons, hfetch]
    | none =>
      have hfetch : fetchRecord lib ms s = some (lib.jsonUnmarshal data) := by
        simp only [fetchRecord, hget]
      have hstep : listStep lib ms (sortSort engine) acc s =
          if (lib.jsonUnmarshal data).ID ∈ engine.map APIContainers.ID
          then acc ++ [lib.jsonUnmarshal data] else acc := by
        simp only [listStep, hget, foundIn_sortSort, decide_eq_true_eq]
      rw [hstep, List.filterMap_cons, hfetch]
      by_cases hmem : (lib.jsonUnmarshal data).ID ∈ engine.map APIContainers.ID
      · rw [if_pos hmem, List.filter_cons_of_pos (by simpa using hmem)]
        simp
      · rw [if_neg hmem, List.filter_cons_of_neg (by simpa using hmem)]

/-- The result of `List` is the reconciled view: a shared statement of what
`List` returns. -/
theorem list_result (lib : Stdlib) (d : Docker) (app : App) :
    (Docker.List lib d app).result =
      .ret (some (reconciled lib app.Storage d.Client.ListContainers.1), none) := by
  unfold Docker.List reconciled MirageStorage.GetSubdomainList
  simp only [listLoop_eq, List.nil_append]

/-- C1: for every registry state and every container list the engine reports,
`List` returns exactly the records of the membership-index entries whose record
can be fetched and whose `ID` is the `ID` of a container of the engine's list,
one per entry and in the order of the membership index; sorting the engine's
list by `ID` and binary-searching it decides that membership exactly. -/
theorem List_returns_reconciled_view (lib : Stdlib) (d : Docker) (app : App) :
    (Docker.List lib d app).result =
        .ret (some (reconciled lib app.Storage d.Client.ListContainers.1), none) ∧
      ∀ id : GoString,
        foundIn (sortSort d.Client.ListContainers.1) id = true ↔
          ∃ c ∈ d.Client.ListContainers.1, c.ID = id := by
  refine ⟨list_result lib d app, ?_⟩
  intro id
  rw [foundIn_sortSort]
  simp [List.mem_map]

/-! ## Registry and route-table lemmas -/

theorem lookup_replace (l : List (GoString × GoString)) (k v : GoString) :
    (l.filter (fun kv => kv.1 ≠ k) ++ [(k, v)]).lookup k = some v := by
  induction l with
  | nil => simp [List.lookup]
  | cons kv rest ih =>
    obtain ⟨k1, v1⟩ := kv
    by_cases h : k1 = k
    · rw [List.filter_cons_of_neg (by simp [h])]
      exact ih
    · have hne : (k == k1) = false := by simpa using fun h2 => h h2.symm
      rw [List.filter_cons_of_pos (by simp [h]), List.cons_append, List.lookup_cons]
      simp only [hne]
      exact ih

theorem mem_replace (l : List (GoString × GoString)) (k v data : GoString)
    (h : (k, data) ∈ l.filter (fun kv => kv.1 ≠ k) ++ [(k, v)]) : data = v := by
  simp at h
  exact h

theorem mem_of_lookup (l : List (GoString × GoString)) (k v : GoString)
    (h : l.lookup k = some v) : (k, v) ∈ l := by
  induction l with
  | nil => simp [List.lookup] at h
  | cons kv rest ih =>
    obtain ⟨k1, v1⟩ := kv
    by_cases hk : k = k1
    · subst hk
      simp [List.lookup] at h
      simp [h]
    · have hne : (k == k1) = false := by simpa using hk
      simp [List.lookup, hne] at h
      exact List.mem_cons_of_mem _ (ih h)

theorem lookup_filter_self (l : List (GoString × GoString)) (k : GoString) :
    (l.filter (fun kv => kv.1 ≠ k)).lookup k = none := by
  induction l with
  | nil => simp [List.lookup]
  | cons kv rest ih =>
    obtain ⟨k1, v1⟩ := kv
    by_cases h : k1 = k
    · rw [List.filter_cons_of_neg (by simp [h])]
      exact ih
    · have hne : (k == k1) = false := by simpa using fun h2 => h h2.symm
      rw [List.filter_cons_of_pos (by simp [h]), List.lookup_cons]
      simp only [hne]
      exact ih

theorem Set_ok (ms : MirageStorage) (key data : GoString) (h : (ms.Set key data).1 = none) :
    ms.Set key data =
      (none, { ms with records := ms.records.filter (fun kv => kv.1 ≠ key) ++ [(key, data)] }) := by
  unfold MirageStorage.Set at h ⊢
  cases hf : ms.fault with
  | none => rfl
  | some e => rw [hf] at h; simp at h

theorem Set_records (ms : MirageStorage) (key data : GoString) :
    (ms.Set key data).2.records = ms.records ∨
      (ms.Set key data).2.records = ms.records.filter (fun kv => kv.1 ≠ key) ++ [(key, data)] := by
  unfold MirageStorage.Set
  cases ms.fault with
  | none => exact Or.inr rfl
  | some e => exact Or.inl rfl

theorem AddToSubdomainMap_records (ms : MirageStorage) (s : GoString) :
    (ms.AddToSubdomainMap s).records = ms.records := by
  unfold MirageStorage.AddToSubdomainMap
  split <;> rfl

theorem AddToSubdomainMap_mem (ms : MirageStorage) (s : GoString) :
    s ∈ (ms.AddToSubdomainMap s).subdomainMap := by
  unfold MirageStorage.AddToSubdomainMap
  split
  · assumption
  · simp

theorem Get_eq (ms ms2 : MirageStorage) (h : ms2.records = ms.records) (key : GoString) :
    ms2.Get key = ms.Get key := by
  unfold MirageStorage.Get
  rw [h]

/-! ## `Launch`, step by step -/

theorem goSlice_take (s : GoString) (h : 12 ≤ s.length) : goSlice s 0 12 = some (s.take 12) := by
  unfold goSlice
  simp [h]

theorem goSlice_fault (s : GoString) (h : s.length < 12) : goSlice s 0 12 = none := by
  unfold goSlice
  simp
  omega

theorem launchOptions_env (cfg : Config) (subdomain image name : GoString) (option : GoMap)
    (opt : CreateContainerOptions)
    (h : launchOptions cfg subdomain image name option = some opt) :
    opt.Config.Env = launchEnv cfg.Parameter option subdomain := by
  unfold launchOptions at h
  cases hhc : cfg.HostConfig with
  | none => rw [hhc] at h; simp at h
  | some hostConfig =>
    rw [hhc] at h
    simp only [Option.some.injEq] at h
    rw [← h]

theorem launchOptions_of_hostConfig (cfg : Config) (subdomain image name : GoString)
    (option : GoMap) (hostConfig : HostConfig) (h : cfg.HostConfig = some hostConfig) :
    ∃ opt, launchOptions cfg subdomain image name option = some opt := by
  unfold launchOptions
  rw [h]
  exact ⟨_, rfl⟩

theorem launchInfo_of_long (container : Container) (networkSettings : NetworkSettings)
    (subdomain image : GoString) (option : GoMap)
    (h : 12 ≤ container.ID.length) (hnet : container.NetworkSettings = some networkSettings) :
    launchInfo (some container) subdomain image option =
      some (expectedRecord container networkSettings subdomain image option) := by
  unfold launchInfo
  simp only [goSlice_take _ h, hnet]
  rfl

theorem launchInfo_of_short (container : Container) (subdomain image : GoString) (option : GoMap)
    (h : container.ID.length < 12) :
    launchInfo (some container) subdomain image option = none := by
  unfold launchInfo
  simp only [goSlice_fault _ h]

theorem launchInfo_of_no_network (container : Container) (subdomain image : GoString)
    (option : GoMap) (h : container.NetworkSettings = none) :
    launchInfo (some container) subdomain image option = none := by
  unfold launchInfo
  simp only [h]
  cases goSlice container.ID 0 12 <;> rfl

theorem launchInfo_shortID (container : Option Container) (subdomain image : GoString)
    (option : GoMap) (info : Information)
    (h : launchInfo container subdomain image option = some info) :
    info.ShortID = info.ID.take 12 := by
  unfold launchInfo at h
  cases container with
  | none => simp at h
  | some c =>
    by_cases hlen : 12 ≤ c.ID.length
    · cases hnet : c.NetworkSettings with
      | none =>
        simp only [goSlice_take _ hlen, hnet] at h
        simp at h
      | some networkSettings =>
        simp only [goSlice_take _ hlen, hnet, Option.some.injEq] at h
        rw [← h]
    · have hlt : c.ID.length < 12 := by omega
      simp only [goSlice_fault c.ID hlt] at h
      simp at h

theorem Launch_no_options (lib : Stdlib) (d : Docker) (app : App)
    (subdomain image name : GoString) (option : GoMap)
    (hopt : launchOptions d.cfg subdomain image name option = none) :
    Docker.Launch lib d app subdomain image name option =
      { result := .panicked, app := app, calls := [] } := by
  unfold Docker.Launch
  simp only [hopt]

theorem Launch_past_start (lib : Stdlib) (d : Docker) (app : App)
    (subdomain image name : GoString) (option : GoMap) (opt : CreateContainerOptions)
    (created : Container)
    (hopt : launchOptions d.cfg subdomain image name option = some opt)
    (hcreate : d.Client.CreateContainer opt = (some created, none))
    (hstart : d.Client.StartContainer created.ID = none) :
    Docker.Launch lib d app subdomain image name option =
      match launchInfo (d.Client.InspectContainer created.ID).1 subdomain image option with
      | none =>
        { result := .panicked, app := app
          calls := launchCalls lib app subdomain opt created }
      | some info =>
        match app.Storage.Set (subdomainKey subdomain) (lib.jsonMarshal info) with
        | (some err, ms1) =>
          { result := .ret (some err), app := { app with Storage := ms1 }
            calls := launchCalls lib app subdomain opt created }
        | (none, ms1) =>
          { result := .ret none
            app :=
              { Storage := ms1.AddToSubdomainMap subdomain
                ReverseProxy := app.ReverseProxy.AddSubdomain subdomain info.IPAddress }
            calls := launchCalls lib app subdomain opt created } := by
  unfold Docker.Launch
  simp only [hopt, hcreate, hstart]
  rfl

theorem Launch_calls_past_start (lib : Stdlib) (d : Docker) (app : App)
    (subdomain image name : GoString) (option : GoMap) (opt : CreateContainerOptions)
    (created : Container)
    (hopt : launchOptions d.cfg subdomain image name option = some opt)
    (hcreate : d.Client.CreateContainer opt = (some created, none))
    (hstart : d.Client.StartContainer created.ID = none) :
    (Docker.Launch lib d app subdomain image name option).calls =
      launchCalls lib app subdomain opt created := by
  rw [Launch_past_start lib d app subdomain image name option opt created hopt hcreate hstart]
  cases launchInfo (d.Client.InspectContainer created.ID).1 subdomain image option with
  | none => rfl
  | some info =>
    simp only
    rcases app.Storage.Set (subdomainKey subdomain) (lib.jsonMarshal info) with ⟨err, ms1⟩
    cases err <;> rfl

theorem Launch_fault_past_start (lib : Stdlib) (d : Docker) (app : App)
    (subdomain image name : GoString) (option : GoMap) (opt : CreateContainerOptions)
    (created : Container)
    (hopt : launchOptions d.cfg subdomain image name option = some opt)
    (hcreate : d.Client.CreateContainer opt = (some created, none))
    (hstart : d.Client.StartContainer created.ID = none)
    (hinfo : launchInfo (d.Client.InspectContainer created.ID).1 subdomain image option = none) :
    (Docker.Launch lib d app subdomain image name option).result = .panicked ∧
      (Docker.Launch lib d app subdomain image name option).app = app := by
  rw [Launch_past_start lib d app subdomain image name option opt created hopt hcreate hstart,
    hinfo]
  exact ⟨rfl, rfl⟩

theorem Launch_success (lib : Stdlib) (d : Docker) (app : App)
    (subdomain image name : GoString) (option : GoMap) (opt : CreateContainerOptions)
    (created container : Container) (networkSettings : NetworkSettings)
    (hopt : launchOptions d.cfg subdomain image name option = some opt)
    (hcreate : d.Client.CreateContainer opt = (some created, none))
    (hstart : d.Client.StartContainer created.ID = none)
    (hinspect : (d.Client.InspectContainer created.ID).1 = some container)
    (hlen : 12 ≤ container.ID.length)
    (hnet : container.NetworkSettings = some networkSettings)
    (hwrite : (app.Storage.Set (subdomainKey subdomain)
      (lib.jsonMarshal (expectedRecord container networkSettings subdomain image option))).1 =
        none) :
    Docker.Launch lib d app subdomain image name option =
      { result := .ret none
        app :=
          { Storage :=
              ({ app.Storage with
                  records := app.Storage.records.filter (fun kv => kv.1 ≠ subdomainKey subdomain) ++
                    [(subdomainKey subdomain,
                      lib.jsonMarshal
                        (expectedRecord container networkSettings subdomain image option))] } :
                MirageStorage).AddToSubdomainMap subdomain
            ReverseProxy :=
              app.ReverseProxy.AddSubdomain subdomain networkSettings.IPAddress }
        calls := launchCalls lib app subdomain opt created } := by
  rw [Launch_past_start lib d app subdomain image name option opt created hopt hcreate hstart,
    hinspect, launchInfo_of_long container networkSettings subdomain image option hlen hnet]
  simp only
  rw [Set_ok _ _ _ hwrite]
  rfl

/-- The records of the registry after any `Launch`: unchanged, or the record of
the subdomain replaced by an encoded record built by `launchInfo`. -/
theorem Launch_records (lib : Stdlib) (d : Docker) (app : App)
    (subdomain image name : GoString) (option : GoMap) :
    (Docker.Launch lib d app subdomain image name option).app.Storage.records =
        app.Storage.records ∨
      ∃ container info, launchInfo container subdomain image option = some info ∧
        (Docker.Launch lib d app subdomain image name option).app.Storage.records =
          app.Storage.records.filter (fun kv => kv.1 ≠ subdomainKey subdomain) ++
            [(subdomainKey subdomain, lib.jsonMarshal info)] := by
  cases hopt : launchOptions d.cfg subdomain image name option with
  | none =>
    rw [Launch_no_options lib d app subdomain image name option hopt]
    exact Or.inl rfl
  | some opt =>
    unfold Docker.Launch
    simp only [hopt]
    rcases d.Client.CreateContainer opt with ⟨c, err⟩
    cases c with
    | none => cases err <;> exact Or.inl rfl
    | some created =>
      cases err with
      | some e => exact Or.inl rfl
      | none =>
        simp only
        cases d.Client.StartContainer created.ID with
        | some e => exact Or.inl rfl
        | none =>
          simp only
          cases hinfo : launchInfo (d.Client.InspectContainer created.ID).1 subdomain image
            option with
          | none => exact Or.inl rfl
          | some info =>
            simp only
            rcases hset : app.Storage.Set (subdomainKey subdomain) (lib.jsonMarshal info) with
              ⟨err, ms1⟩
            have hrec := Set_records app.Storage (subdomainKey subdomain) (lib.jsonMarshal info)
            rw [hset] at hrec
            cases err with
            | some e =>
              simp only
              rcases hrec with h | h
              · exact Or.inl h
              · exact Or.inr ⟨_, info, hinfo, h⟩
            | none =>
              simp only [AddToSubdomainMap_records]
              rcases hrec with h | h
              · exact Or.inl h
              · exact Or.inr ⟨_, info, hinfo, h⟩

theorem getContainerID_iff (lib : Stdlib) (subdomain : GoString) (ms : MirageStorage)
    (id : GoString) :
    (getContainerIDFromSubdomain lib subdomain ms = id ∧ id ≠ []) ↔
      (id ≠ [] ∧ ∃ data, ms.Get (subdomainKey subdomain) = (data, none) ∧
        (lib.jsonUnmarshal data).ID = id) := by
  unfold getContainerIDFromSubdomain
  rcases hget : ms.Get (subdomainKey subdomain) with ⟨data, err⟩
  cases err with
  | some e =>
    simp only [ite_self]
    constructor
    · rintro ⟨h1, h2⟩
      exact absurd h1.symm h2
    · rintro ⟨_, data2, h, _⟩
      simp at h
  | none =>
    simp only
    constructor
    · rintro ⟨h1, h2⟩
      exact ⟨h2, data, rfl, h1⟩
    · rintro ⟨h2, data2, h, h1⟩
      simp only [Prod.mk.injEq, and_true] at h
      rw [h]
      exact ⟨h1, h2⟩

theorem getContainerID_of_get (lib : Stdlib) (subdomain : GoString) (ms : MirageStorage)
    (data : GoString) (h : ms.Get (subdomainKey subdomain) = (data, none)) :
    getContainerIDFromSubdomain lib subdomain ms = (lib.jsonUnmarshal data).ID := by
  unfold getContainerIDFromSubdomain
  rw [h]

theorem getContainerID_of_error (lib : Stdlib) (subdomain : GoString) (ms : MirageStorage)
    (h : (ms.Get (subdomainKey subdomain)).2 ≠ none) :
    getContainerIDFromSubdomain lib subdomain ms = [] := by
  unfold getContainerIDFromSubdomain
  rcases hget : ms.Get (subdomainKey subdomain) with ⟨data, err⟩
  cases err with
  | some e => simp
  | none => rw [hget] at h; exact absurd rfl h

theorem stop_mem_launchCalls (lib : Stdlib) (app : App) (subdomain : GoString)
    (opt : CreateContainerOptions) (created : Container) (id : GoString) (timeout : Nat) :
    Call.stop id timeout ∈ launchCalls lib app subdomain opt created ↔
      (timeout = 5 ∧ getContainerIDFromSubdomain lib subdomain app.Storage = id ∧ id ≠ []) := by
  unfold launchCalls
  by_cases hold : getContainerIDFromSubdomain lib subdomain app.Storage = []
  · simp only [hold, ne_eq, not_true_eq_false, if_false, List.append_nil]
    constructor
    · intro h
      simp at h
    · rintro ⟨_, h1, h2⟩
      exact absurd h1.symm h2
  · simp only [ne_eq, hold, not_false_eq_true, if_true]
    constructor
    · intro h
      simp at h
      obtain ⟨h1, h2⟩ := h
      subst h1
      exact ⟨h2, rfl, hold⟩
    · rintro ⟨h1, h2, _⟩
      subst h1 h2
      simp

theorem create_mem_launchCalls (lib : Stdlib) (app : App) (subdomain : GoString)
    (opt : CreateContainerOptions) (created : Container) (other : CreateContainerOptions) :
    Call.create other ∈ launchCalls lib app subdomain opt created ↔ other = opt := by
  unfold launchCalls
  by_cases hold : getContainerIDFromSubdomain lib subdomain app.Storage = []
  · simp [hold]
  · simp [hold]

theorem Launch_create_failure (lib : Stdlib) (d : Docker) (app : App)
    (subdomain image name : GoString) (option : GoMap) (opt : CreateContainerOptions)
    (err : GoError)
    (hopt : launchOptions d.cfg subdomain image name option = some opt)
    (hcreate : (d.Client.CreateContainer opt).2 = some err) :
    (Docker.Launch lib d app subdomain image name option).result = .ret (some err) ∧
      (Docker.Launch lib d app subdomain image name option).app = app := by
  unfold Docker.Launch
  simp only [hopt]
  rcases hc : d.Client.CreateContainer opt with ⟨c, e⟩
  rw [hc] at hcreate
  simp only at hcreate
  subst hcreate
  cases c <;> exact ⟨rfl, rfl⟩

theorem Launch_start_failure (lib : Stdlib) (d : Docker) (app : App)
    (subdomain image name : GoString) (option : GoMap) (opt : CreateContainerOptions)
    (created : Container) (err : GoError)
    (hopt : launchOptions d.cfg subdomain image name option = some opt)
    (hcreate : d.Client.CreateContainer opt = (some created, none))
    (hstart : d.Client.StartContainer created.ID = some err) :
    (Docker.Launch lib d app subdomain image name option).result = .ret (some err) ∧
      (Docker.Launch lib d app subdomain image name option).app = app := by
  unfold Docker.Launch
  simp only [hopt, hcreate, hstart]
  exact ⟨trivial, trivial⟩

/-- Every create call a `Launch` issues carries the options built at lines
56-72. -/
theorem Launch_create_calls (lib : Stdlib) (d : Docker) (app : App)
    (subdomain image name : GoString) (option : GoMap) (other : CreateContainerOptions)
    (hmem : Call.create other ∈ (Docker.Launch lib d app subdomain image name option).calls) :
    launchOptions d.cfg subdomain image name option = some other := by
  cases hopt : launchOptions d.cfg subdomain image name option with
  | none =>
    rw [Launch_no_options lib d app subdomain image name option hopt] at hmem
    simp at hmem
  | some opt =>
    rcases hcr : d.Client.CreateContainer opt with ⟨c, err⟩
    cases c with
    | none =>
      cases err with
      | none =>
        simp only [Docker.Launch, hopt, hcr] at hmem
        simp at hmem
        rw [hmem]
      | some e =>
        simp only [Docker.Launch, hopt, hcr] at hmem
        simp at hmem
        rw [hmem]
    | some created =>
      cases err with
      | some e =>
        simp only [Docker.Launch, hopt, hcr] at hmem
        simp at hmem
        rw [hmem]
      | none =>
        cases hst : d.Client.StartContainer created.ID with
        | some e =>
          simp only [Docker.Launch, hopt, hcr, hst] at hmem
          simp at hmem
          rw [hmem]
        | none =>
          rw [Launch_calls_past_start lib d app subdomain image name option opt created hopt hcr
            hst] at hmem
          rw [(create_mem_launchCalls lib app subdomain opt created other).mp hmem]

/-- A `Launch` that builds its options begins with the create call. -/
theorem Launch_first_call (lib : Stdlib) (d : Docker) (app : App)
    (subdomain image name : GoString) (option : GoMap) (opt : CreateContainerOptions)
    (hopt : launchOptions d.cfg subdomain image name option = some opt) :
    ∃ rest, (Docker.Launch lib d app subdomain image name option).calls =
      Call.create opt :: rest := by
  unfold Docker.Launch
  simp only [hopt]
  rcases d.Client.CreateContainer opt with ⟨c, err⟩
  cases c with
  | none => cases err <;> exact ⟨_, rfl⟩
  | some created =>
    cases err with
    | some e => exact ⟨_, rfl⟩
    | none =>
      simp only
      cases d.Client.StartContainer created.ID with
      | some e => exact ⟨_, rfl⟩
      | none =>
        simp only
        cases launchInfo (d.Client.InspectContainer created.ID).1 subdomain image option with
        | none => exact ⟨_, rfl⟩
        | some info =>
          simp only
          rcases app.Storage.Set (subdomainKey subdomain) (lib.jsonMarshal info) with ⟨e, ms1⟩
          cases e <;> exact ⟨_, rfl⟩

theorem Terminate_records (lib : Stdlib) (d : Docker) (app : App) (subdomain : GoString)
    (kv : GoString × GoString)
    (h : kv ∈ (Docker.Terminate lib d app subdomain).app.Storage.records) :
    kv ∈ app.Storage.records := by
  unfold Docker.Terminate at h
  simp only at h
  cases hstop : d.Client.StopContainer (getContainerIDFromSubdomain lib subdomain app.Storage) 5 with
  | some e =>
    rw [hstop] at h
    exact h
  | none =>
    rw [hstop] at h
    exact List.mem_of_mem_filter h

theorem writtenByLaunch_encoded (lib : Stdlib) (app : App) (h : WrittenByLaunch lib app) :
    RecordsEncoded lib app.Storage := by
  induction h with
  | init app h =>
    intro k data hmem
    rw [h] at hmem
    simp at hmem
  | launch d app subdomain image name option _ ih =>
    intro k data hmem
    rcases Launch_records lib d app subdomain image name option with hrec | ⟨c, info, hinfo, hrec⟩
    · rw [hrec] at hmem
      exact ih k data hmem
    · rw [hrec, List.mem_append] at hmem
      rcases hmem with hold | hnew
      · exact ih k data (List.mem_of_mem_filter hold)
      · simp only [List.mem_singleton, Prod.mk.injEq] at hnew
        exact ⟨info, hnew.2, launchInfo_shortID c subdomain image option info hinfo⟩
  | terminate d app subdomain _ ih =>
    intro k data hmem
    exact ih k data (Terminate_records lib d app subdomain _ hmem)
  | backend app fault _ ih =>
    intro k data hmem
    exact ih k data hmem

theorem Logs_unregistered (lib : Stdlib) (d : Docker) (app : App) (subdomain since tail : GoString)
    (hnone : (app.Storage.Get (subdomainKey subdomain)).2 ≠ none)
    (hsince : since = [] ∨ (lib.timeParse since).2 = none) :
    (Docker.Logs lib d app subdomain since tail).result =
        .ret (none, some (GoError.Errorf (str "subdomain=" ++ subdomain ++ str " is not found"))) ∧
      (Docker.Logs lib d app subdomain since tail).calls = [] := by
  have hid := getContainerID_of_error lib subdomain app.Storage hnone
  unfold Docker.Logs
  rcases hsince with h | h
  · subst h
    simp only [ne_eq, not_true_eq_false, if_false, hid, if_true]
    exact ⟨trivial, trivial⟩
  · by_cases hs : since = []
    · subst hs
      simp only [ne_eq, not_true_eq_false, if_false, hid, if_true]
      exact ⟨trivial, trivial⟩
    · rcases hp : lib.timeParse since with ⟨t, e⟩
      rw [hp] at h
      simp only at h
      subst h
      simp only [ne_eq, hs, not_false_eq_true, if_true, hp, hid]
      exact ⟨trivial, trivial⟩

theorem mem_reconciled (lib : Stdlib) (ms : MirageStorage) (engine : List APIContainers)
    (info : Information) :
    info ∈ reconciled lib ms engine ↔
      (∃ s ∈ ms.subdomainMap, ∃ data, ms.Get (subdomainKey s) = (data, none) ∧
        lib.jsonUnmarshal data = info) ∧ info.ID ∈ engine.map APIContainers.ID := by
  unfold reconciled
  rw [List.mem_filter, List.mem_filterMap, decide_eq_true_eq]
  apply and_congr_left
  intro _
  constructor
  · rintro ⟨s, hs, hf⟩
    refine ⟨s, hs, ?_⟩
    unfold fetchRecord at hf
    rcases hget : ms.Get (subdomainKey s) with ⟨data, err⟩
    rw [hget] at hf
    cases err with
    | some e => simp at hf
    | none =>
      simp only [Option.some.injEq] at hf
      exact ⟨data, rfl, hf⟩
  · rintro ⟨s, hs, data, hget, hinfo⟩
    refine ⟨s, hs, ?_⟩
    unfold fetchRecord
    rw [hget, ← hinfo]

theorem launchEnv_eq (parameter : List Parameter) (option : GoMap) (subdomain : GoString) :
    launchEnv parameter option subdomain = expectedEnv parameter option subdomain := by
  unfold launchEnv expectedEnv
  have hloop : ∀ (ps : List Parameter) (acc : List GoString),
      ps.foldl
        (fun dockerEnv v =>
          if option.index v.Name = [] then dockerEnv
          else dockerEnv ++ [v.Env ++ str "=" ++ option.index v.Name]) acc =
        acc ++ (ps.filter (fun v => decide (option.index v.Name ≠ []))).map
          (fun v => v.Env ++ str "=" ++ option.index v.Name) := by
    intro ps
    induction ps with
    | nil => intro acc; simp
    | cons p rest ih =>
      intro acc
      rw [List.foldl_cons, ih]
      by_cases hp : option.index p.Name = []
      · rw [if_pos hp, List.filter_cons_of_neg (by simp [hp])]
      · rw [if_neg hp, List.filter_cons_of_pos (by simp [hp]), List.map_cons, List.append_assoc]
        rfl
  simp only [hloop, List.nil_append]

theorem losslessCodec_roundtrip (info : Information) :
    losslessCodec.jsonUnmarshal (losslessCodec.jsonMarshal info) = info := by
  unfold losslessCodec
  simp only [List.length_replicate, Encodable.encodek, Option.getD_some]

/-! ## The claims -/

/-- C2 (counterexample): create, start, inspect and the registry write all
succeed, yet `Launch` does not return success and registers nothing: once
because the identifier of the new container has fewer than 12 bytes, once
because the inspected container has no network settings. -/
theorem Launch_short_id_registers_nothing :
    ((dockerWith tinyContainer []).Client.CreateContainer
        (sampleOptions (str "app1") (str "demo:latest") (str "app1-c1") []) =
          (some tinyContainer, none) ∧
      (dockerWith tinyContainer []).Client.StartContainer tinyContainer.ID = none ∧
      (dockerWith tinyContainer []).Client.InspectContainer tinyContainer.ID =
        (some tinyContainer, none) ∧
      (∀ data, (freshApp.Storage.Set (subdomainKey (str "app1")) data).1 = none) ∧
      (Docker.Launch idCodec (dockerWith tinyContainer []) freshApp (str "app1")
        (str "demo:latest") (str "app1-c1") []).result ≠ .ret none ∧
      (Docker.Launch idCodec (dockerWith tinyContainer []) freshApp (str "app1")
        (str "demo:latest") (str "app1-c1") []).app.Storage.Get (subdomainKey (str "app1")) =
        ([], some GoError.ErrNotFound) ∧
      str "app1" ∉ (Docker.Launch idCodec (dockerWith tinyContainer []) freshApp (str "app1")
        (str "demo:latest") (str "app1-c1") []).app.Storage.subdomainMap) ∧
      ((dockerWith bareContainer []).Client.InspectContainer bareContainer.ID =
        (some bareContainer, none) ∧
      12 ≤ bareContainer.ID.length ∧
      (Docker.Launch idCodec (dockerWith bareContainer []) freshApp (str "app1")
        (str "demo:latest") (str "app1-c1") []).result ≠ .ret none ∧
      (Docker.Launch idCodec (dockerWith bareContainer []) freshApp (str "app1")
        (str "demo:latest") (str "app1-c1") []).app.Storage.Get (subdomainKey (str "app1")) =
        ([], some GoError.ErrNotFound)) := by
  refine ⟨⟨by decide, by decide, by decide, fun data => rfl, by decide, by decide, by decide⟩,
    by decide, by decide, by decide, by decide⟩

/-- C2 (as amended): for every `Launch` that builds its options and in which
create, start, inspect and the registry write succeed, the inspected identifier
has at least 12 bytes and the inspected container has network settings, whether
or not the stop of an old container fails, `Launch` returns success; afterwards
the registry holds under `subdomain:<subdomain>` the encoding of the record of
the new container (inspected id, given subdomain and image, `option["branch"]`,
inspected address and creation time), which is the only record under that key;
the subdomain is in the membership index; and the route table binds the
subdomain to the inspected address. -/
theorem Launch_registers_new_container (lib : Stdlib) (d : Docker) (app : App)
    (subdomain image name : GoString) (option : GoMap) (opt : CreateContainerOptions)
    (created container : Container) (networkSettings : NetworkSettings)
    (hopt : launchOptions d.cfg subdomain image name option = some opt)
    (hcreate : d.Client.CreateContainer opt = (some created, none))
    (hstart : d.Client.StartContainer created.ID = none)
    (hinspect : d.Client.InspectContainer created.ID = (some container, none))
    (hnet : container.NetworkSettings = some networkSettings)
    (hwrite : (app.Storage.Set (subdomainKey subdomain)
      (lib.jsonMarshal (expectedRecord container networkSettings subdomain image option))).1 =
        none)
    (hlen : 12 ≤ container.ID.length) :
    (Docker.Launch lib d app subdomain image name option).result = .ret none ∧
      (Docker.Launch lib d app subdomain image name option).app.Storage.Get
          (subdomainKey subdomain) =
        (lib.jsonMarshal (expectedRecord container networkSettings subdomain image option),
          none) ∧
      (∀ data, (subdomainKey subdomain, data) ∈
          (Docker.Launch lib d app subdomain image name option).app.Storage.records →
        data = lib.jsonMarshal (expectedRecord container networkSettings subdomain image option)) ∧
      subdomain ∈ (Docker.Launch lib d app subdomain image name option).app.Storage.subdomainMap ∧
      (Docker.Launch lib d app subdomain image name option).app.ReverseProxy.resolve subdomain =
        some networkSettings.IPAddress := by
  have hins : (d.Client.InspectContainer created.ID).1 = some container := by rw [hinspect]
  rw [Launch_success lib d app subdomain image name option opt created container networkSettings
    hopt hcreate hstart hins hlen hnet hwrite]
  refine ⟨rfl, ?_, ?_, AddToSubdomainMap_mem _ _, ?_⟩
  · unfold MirageStorage.Get
    simp only [AddToSubdomainMap_records, lookup_replace]
  · intro data hmem
    simp only [AddToSubdomainMap_records] at hmem
    exact mem_replace _ _ _ _ hmem
  · exact lookup_replace _ _ _

/-- C2 (witness): relaunching `app1`, registered with another container, on an
engine that creates `otherContainer`. -/
theorem Launch_registers_new_container_witness :
    (launchOptions (dockerWith otherContainer []).cfg (str "app1") (str "demo:latest")
        (str "app1-c2") [(str "branch", str "main")] =
        some (sampleOptions (str "app1") (str "demo:latest") (str "app1-c2")
          [(str "branch", str "main")]) ∧
      (dockerWith otherContainer []).Client.CreateContainer
        (sampleOptions (str "app1") (str "demo:latest") (str "app1-c2")
          [(str "branch", str "main")]) = (some otherContainer, none) ∧
      (dockerWith otherContainer []).Client.StartContainer otherContainer.ID = none ∧
      (dockerWith otherContainer []).Client.InspectContainer otherContainer.ID =
        (some otherContainer, none) ∧
      otherContainer.NetworkSettings = some { IPAddress := str "10.0.0.3" } ∧
      (registeredApp.Storage.Set (subdomainKey (str "app1"))
        (idCodec.jsonMarshal (expectedRecord otherContainer { IPAddress := str "10.0.0.3" }
          (str "app1") (str "demo:latest") [(str "branch", str "main")]))).1 = none ∧
      12 ≤ otherContainer.ID.length) ∧
      (Docker.Launch idCodec (dockerWith otherContainer []) registeredApp (str "app1")
        (str "demo:latest") (str "app1-c2") [(str "branch", str "main")]).result = .ret none ∧
      (Docker.Launch idCodec (dockerWith otherContainer []) registeredApp (str "app1")
        (str "demo:latest") (str "app1-c2") [(str "branch", str "main")]).app.ReverseProxy.resolve
          (str "app1") = some (str "10.0.0.3") :=
  have h := Launch_registers_new_container idCodec (dockerWith otherContainer []) registeredApp
    (str "app1") (str "demo:latest") (str "app1-c2") [(str "branch", str "main")]
    (sampleOptions (str "app1") (str "demo:latest") (str "app1-c2") [(str "branch", str "main")])
    otherContainer otherContainer { IPAddress := str "10.0.0.3" }
    (by decide) (by decide) (by decide) (by decide) (by decide) (by decide) (by decide)
  ⟨⟨by decide, by decide, by decide, by decide, by decide, by decide, by decide⟩, h.1, h.2.2.2.2⟩

/-- C3 (counterexample): the registry record of `app1` names the very
identifier the engine gives the new container, and `Launch` still issues a
stop call against it. -/
theorem Launch_stops_container_of_same_id :
    registeredApp.Storage.Get (subdomainKey (str "app1")) = (sampleContainer.ID, none) ∧
      (idCodec.jsonUnmarshal sampleContainer.ID).ID = sampleContainer.ID ∧
      (dockerWith sampleContainer []).Client.CreateContainer
        (sampleOptions (str "app1") (str "demo:latest") (str "app1-c2") []) =
          (some sampleContainer, none) ∧
      (dockerWith sampleContainer []).Client.StartContainer sampleContainer.ID = none ∧
      (dockerWith sampleContainer []).Client.InspectContainer sampleContainer.ID =
        (some sampleContainer, none) ∧
      Call.stop sampleContainer.ID 5 ∈
        (Docker.Launch idCodec (dockerWith sampleContainer []) registeredApp (str "app1")
          (str "demo:latest") (str "app1-c2") []).calls := by
  refine ⟨by decide, by decide, by decide, by decide, by decide, by decide⟩

/-- C3 (as amended): for every `Launch` that gets past create and start, a stop
call is issued exactly against the identifier decoded from the registry record
of the subdomain, with a 5-second grace period, when such a record exists and
that identifier is not empty, whether or not it differs from the identifier of
the new container; no stop is issued when the registry has no record; and on a
second `Launch` of a subdomain, after a first one that succeeded and whose
record decodes to the identifier it was built from, the stop is issued against
the first container's identifier. -/
theorem Launch_stops_registered_container (lib : Stdlib) (d : Docker) (app : App)
    (subdomain image name : GoString) (option : GoMap) (opt : CreateContainerOptions)
    (created : Container)
    (hopt : launchOptions d.cfg subdomain image name option = some opt)
    (hcreate : d.Client.CreateContainer opt = (some created, none))
    (hstart : d.Client.StartContainer created.ID = none) :
    (∀ (id : GoString) (timeout : Nat),
        Call.stop id timeout ∈ (Docker.Launch lib d app subdomain image name option).calls ↔
          (timeout = 5 ∧ id ≠ [] ∧ ∃ data, app.Storage.Get (subdomainKey subdomain) = (data, none) ∧
            (lib.jsonUnmarshal data).ID = id)) ∧
      ((app.Storage.Get (subdomainKey subdomain)).2 ≠ none →
        ∀ (id : GoString) (timeout : Nat),
          Call.stop id timeout ∉ (Docker.Launch lib d app subdomain image name option).calls) ∧
      (∀ (d1 : Docker) (app0 : App) (image1 name1 : GoString) (option1 : GoMap)
          (opt1 : CreateContainerOptions) (created1 container1 : Container)
          (networkSettings1 : NetworkSettings),
        app = (Docker.Launch lib d1 app0 subdomain image1 name1 option1).app →
        launchOptions d1.cfg subdomain image1 name1 option1 = some opt1 →
        d1.Client.CreateContainer opt1 = (some created1, none) →
        d1.Client.StartContainer created1.ID = none →
        d1.Client.InspectContainer created1.ID = (some container1, none) →
        container1.NetworkSettings = some networkSettings1 →
        12 ≤ container1.ID.length →
        (app0.Storage.Set (subdomainKey subdomain)
          (lib.jsonMarshal
            (expectedRecord container1 networkSettings1 subdomain image1 option1))).1 = none →
        (lib.jsonUnmarshal
          (lib.jsonMarshal
            (expectedRecord container1 networkSettings1 subdomain image1 option1))).ID =
            container1.ID →
        Call.stop container1.ID 5 ∈
          (Docker.Launch lib d app subdomain image name option).calls) := by
  have hcalls := Launch_calls_past_start lib d app subdomain image name option opt created hopt
    hcreate hstart
  have hiff : ∀ (id : GoString) (timeout : Nat),
      Call.stop id timeout ∈ (Docker.Launch lib d app subdomain image name option).calls ↔
        (timeout = 5 ∧ id ≠ [] ∧ ∃ data, app.Storage.Get (subdomainKey subdomain) = (data, none) ∧
          (lib.jsonUnmarshal data).ID = id) := by
    intro id timeout
    rw [hcalls, stop_mem_launchCalls, getContainerID_iff]
  refine ⟨hiff, ?_, ?_⟩
  · intro hnone id timeout hmem
    obtain ⟨_, _, data, hget, _⟩ := (hiff id timeout).mp hmem
    rw [hget] at hnone
    exact hnone rfl
  · intro d1 app0 image1 name1 option1 opt1 created1 container1 networkSettings1 happ hopt1
      hcreate1 hstart1 hinspect1 hnet1 hlen1 hwrite1 hdecode
    have hfirst := Launch_success lib d1 app0 subdomain image1 name1 option1 opt1 created1
      container1 networkSettings1 hopt1 hcreate1 hstart1 (by rw [hinspect1]) hlen1 hnet1 hwrite1
    have hget : app.Storage.Get (subdomainKey subdomain) =
        (lib.jsonMarshal (expectedRecord container1 networkSettings1 subdomain image1 option1),
          none) := by
      rw [happ, hfirst]
      unfold MirageStorage.Get
      simp only [AddToSubdomainMap_records, lookup_replace]
    have hne : container1.ID ≠ [] := by
      intro h
      rw [h] at hlen1
      simp at hlen1
    exact (hiff container1.ID 5).mpr ⟨rfl, hne, _, hget, hdecode⟩

/-- C3 (witness): `app1` is launched on a fresh system with `sampleContainer`
and launched again with `otherContainer`; the second `Launch` stops
`sampleContainer`. -/
theorem Launch_stops_registered_container_witness :
    launchOptions (dockerWith otherContainer []).cfg (str "app1") (str "demo:v2")
        (str "app1-c2") [] = some (sampleOptions (str "app1") (str "demo:v2") (str "app1-c2") []) ∧
      (dockerWith otherContainer []).Client.CreateContainer
        (sampleOptions (str "app1") (str "demo:v2") (str "app1-c2") []) =
          (some otherContainer, none) ∧
      (dockerWith otherContainer []).Client.StartContainer otherContainer.ID = none ∧
      Call.stop sampleContainer.ID 5 ∈
        (Docker.Launch idCodec (dockerWith otherContainer [])
          (Docker.Launch idCodec (dockerWith sampleContainer []) freshApp (str "app1")
            (str "demo:latest") (str "app1-c1") []).app
          (str "app1") (str "demo:v2") (str "app1-c2") []).calls :=
  ⟨by decide, by decide, by decide,
    (Launch_stops_registered_container idCodec (dockerWith otherContainer [])
      (Docker.Launch idCodec (dockerWith sampleContainer []) freshApp (str "app1")
        (str "demo:latest") (str "app1-c1") []).app
      (str "app1") (str "demo:v2") (str "app1-c2") []
      (sampleOptions (str "app1") (str "demo:v2") (str "app1-c2") []) otherContainer
      (by decide) (by decide) (by decide)).2.2
      (dockerWith sampleContainer []) freshApp (str "demo:latest") (str "app1-c1") []
      (sampleOptions (str "app1") (str "demo:latest") (str "app1-c1") [])
      sampleContainer sampleContainer { IPAddress := str "10.0.0.2" } rfl (by decide) (by decide)
      (by decide) (by decide) (by decide) (by decide) (by decide) (by decide)⟩

/-- C4: for every subdomain with a registered record whose container the engine
stops successfully, `Terminate` returns success and afterwards the subdomain is
absent from the membership index, its record is absent from the record store
(the registry reports not found under `subdomain:<subdomain>`) and the
subdomain is unbound in the route table. -/
theorem Terminate_unregisters (lib : Stdlib) (d : Docker) (app : App) (subdomain data : GoString)
    (hrecord : app.Storage.Get (subdomainKey subdomain) = (data, none))
    (hstop : d.Client.StopContainer (lib.jsonUnmarshal data).ID 5 = none) :
    (Docker.Terminate lib d app subdomain).result = .ret none ∧
      subdomain ∉ (Docker.Terminate lib d app subdomain).app.Storage.subdomainMap ∧
      (∀ stored, (subdomainKey subdomain, stored) ∉
        (Docker.Terminate lib d app subdomain).app.Storage.records) ∧
      (Docker.Terminate lib d app subdomain).app.Storage.Get (subdomainKey subdomain) =
        ([], some GoError.ErrNotFound) ∧
      (Docker.Terminate lib d app subdomain).app.ReverseProxy.resolve subdomain = none := by
  have hid := getContainerID_of_get lib subdomain app.Storage data hrecord
  have hrun : Docker.Terminate lib d app subdomain =
      { result := .ret none
        app :=
          { Storage := app.Storage.RemoveFromSubdomainMap subdomain
            ReverseProxy := app.ReverseProxy.RemoveSubdomain subdomain }
        calls := [.stop (lib.jsonUnmarshal data).ID 5] } := by
    unfold Docker.Terminate
    simp only [hid, hstop]
  rw [hrun]
  refine ⟨rfl, ?_, ?_, ?_, ?_⟩
  · simp [MirageStorage.RemoveFromSubdomainMap, List.mem_filter]
  · intro stored hmem
    simp [MirageStorage.RemoveFromSubdomainMap, List.mem_filter] at hmem
  · unfold MirageStorage.Get
    simp only [MirageStorage.RemoveFromSubdomainMap, lookup_filter_self]
  · exact lookup_filter_self _ _

/-- C4 (witness): terminating the registered `app1`. -/
theorem Terminate_unregisters_witness :
    (registeredApp.Storage.Get (subdomainKey (str "app1")) = (sampleContainer.ID, none) ∧
      (dockerWith sampleContainer []).Client.StopContainer
        (idCodec.jsonUnmarshal sampleContainer.ID).ID 5 = none) ∧
      str "app1" ∉ (Docker.Terminate idCodec (dockerWith sampleContainer []) registeredApp
        (str "app1")).app.Storage.subdomainMap ∧
      (Docker.Terminate idCodec (dockerWith sampleContainer []) registeredApp
        (str "app1")).app.Storage.Get (subdomainKey (str "app1")) =
          ([], some GoError.ErrNotFound) ∧
      (Docker.Terminate idCodec (dockerWith sampleContainer []) registeredApp
        (str "app1")).app.ReverseProxy.resolve (str "app1") = none :=
  have h := Terminate_unregisters idCodec (dockerWith sampleContainer []) registeredApp
    (str "app1") sampleContainer.ID (by decide) (by decide)
  ⟨⟨by decide, by decide⟩, h.2.1, h.2.2.2.1, h.2.2.2.2⟩

/-- C5 (failing input): `app1` was never launched and the engine answers
success to a stop call against the empty identifier; `Terminate` issues that
call and returns success instead of a not-found error, while `Logs` on the same
state returns the not-found error without calling the engine. -/
theorem Terminate_unregistered_returns_success :
    freshApp.Storage.Get (subdomainKey (str "app1")) = ([], some GoError.ErrNotFound) ∧
      (Docker.Terminate idCodec (dockerWith sampleContainer []) freshApp (str "app1")).result =
        .ret none ∧
      (Docker.Terminate idCodec (dockerWith sampleContainer []) freshApp (str "app1")).calls =
        [Call.stop [] 5] ∧
      (Docker.Logs idCodec (dockerWith sampleContainer []) freshApp (str "app1") []
        (str "all")).result =
        .ret (none, some (GoError.Errorf (str "subdomain=app1 is not found"))) := by
  refine ⟨by decide, by decide, by decide, by decide⟩

/-- C6 (failing input): create and start succeed and inspect fails with an
error and no container; `Launch` does not return that error: it first stops the
container registered for the subdomain and then faults on the nil container. -/
theorem Launch_inspect_failure_faults :
    (engineInspectFailing otherContainer).InspectContainer otherContainer.ID =
        (none, some (GoError.raised (str "inspect failed"))) ∧
      (Docker.Launch idCodec { cfg := sampleConfig, Client := engineInspectFailing otherContainer }
        registeredApp (str "app1") (str "demo:latest") (str "app1-c2") []).result = .panicked ∧
      (Docker.Launch idCodec { cfg := sampleConfig, Client := engineInspectFailing otherContainer }
        registeredApp (str "app1") (str "demo:latest") (str "app1-c2") []).result ≠
          .ret (some (GoError.raised (str "inspect failed"))) ∧
      Call.stop sampleContainer.ID 5 ∈
        (Docker.Launch idCodec { cfg := sampleConfig, Client := engineInspectFailing otherContainer }
          registeredApp (str "app1") (str "demo:latest") (str "app1-c2") []).calls := by
  refine ⟨by decide, by decide, by decide, by decide⟩

/-- C7: if the engine's stop call made by `Terminate` fails, `Terminate`
returns that failure and leaves the membership index, the record store and the
route table as they were. -/
theorem Terminate_stop_failure (lib : Stdlib) (d : Docker) (app : App) (subdomain : GoString)
    (err : GoError)
    (hstop : d.Client.StopContainer (getContainerIDFromSubdomain lib subdomain app.Storage) 5 =
      some err) :
    (Docker.Terminate lib d app subdomain).result = .ret (some err) ∧
      (Docker.Terminate lib d app subdomain).app.Storage.subdomainMap =
        app.Storage.subdomainMap ∧
      (Docker.Terminate lib d app subdomain).app.Storage.records = app.Storage.records ∧
      (Docker.Terminate lib d app subdomain).app.ReverseProxy = app.ReverseProxy ∧
      (Docker.Terminate lib d app subdomain).app = app := by
  unfold Docker.Terminate
  simp only [hstop]
  exact ⟨trivial, trivial, trivial, trivial, trivial⟩

/-- C7 (witness): the engine refuses to stop the container of the registered
`app1`. -/
theorem Terminate_stop_failure_witness :
    (engineStopFailing sampleContainer).StopContainer
        (getContainerIDFromSubdomain idCodec (str "app1") registeredApp.Storage) 5 =
        some (GoError.raised (str "stop failed")) ∧
      (Docker.Terminate idCodec { cfg := sampleConfig, Client := engineStopFailing sampleContainer }
        registeredApp (str "app1")).result = .ret (some (GoError.raised (str "stop failed"))) ∧
      (Docker.Terminate idCodec { cfg := sampleConfig, Client := engineStopFailing sampleContainer }
        registeredApp (str "app1")).app = registeredApp :=
  have h := Terminate_stop_failure idCodec
    { cfg := sampleConfig, Client := engineStopFailing sampleContainer } registeredApp
    (str "app1") (GoError.raised (str "stop failed")) (by decide)
  ⟨by decide, h.1, h.2.2.2.2⟩

/-- C8: `List` leaves the record store, the membership index and the route
table unchanged; a registered subdomain whose container identifier is missing
from the engine's list is left out of the result while its record and its
membership-index entry stay, and a later `List`, made when the engine reports
that identifier, returns the record. -/
theorem List_is_read_only (lib : Stdlib) (d : Docker) (app : App) :
    ((Docker.List lib d app).app.Storage.records = app.Storage.records ∧
      (Docker.List lib d app).app.Storage.subdomainMap = app.Storage.subdomainMap ∧
      (Docker.List lib d app).app.ReverseProxy = app.ReverseProxy ∧
      (Docker.List lib d app).app = app) ∧
      ∀ (subdomain data : GoString),
        subdomain ∈ app.Storage.subdomainMap →
        app.Storage.Get (subdomainKey subdomain) = (data, none) →
        (lib.jsonUnmarshal data).ID ∉ d.Client.ListContainers.1.map APIContainers.ID →
        (∃ result, (Docker.List lib d app).result = .ret (some result, none) ∧
          lib.jsonUnmarshal data ∉ result) ∧
        subdomain ∈ (Docker.List lib d app).app.Storage.subdomainMap ∧
        (Docker.List lib d app).app.Storage.Get (subdomainKey subdomain) = (data, none) ∧
        ∀ later : Docker,
          (lib.jsonUnmarshal data).ID ∈ later.Client.ListContainers.1.map APIContainers.ID →
          ∃ result, (Docker.List lib later (Docker.List lib d app).app).result =
            .ret (some result, none) ∧ lib.jsonUnmarshal data ∈ result := by
  have happ : (Docker.List lib d app).app = app := rfl
  refine ⟨⟨by rw [happ], by rw [happ], by rw [happ], happ⟩, ?_⟩
  intro subdomain data hmem hget hmissing
  rw [happ]
  refine ⟨⟨_, list_result lib d app, ?_⟩, hmem, hget, ?_⟩
  · intro hin
    exact hmissing ((mem_reconciled lib app.Storage _ _).mp hin).2
  · intro later hback
    exact ⟨_, list_result lib later app,
      (mem_reconciled lib app.Storage _ _).mpr ⟨⟨subdomain, hmem, data, hget, rfl⟩, hback⟩⟩

/-- C8 (witness): `app1` is registered with `sampleContainer`; the engine first
reports no container and later reports `sampleContainer`. -/
theorem List_is_read_only_witness :
    (str "app1" ∈ registeredApp.Storage.subdomainMap ∧
      registeredApp.Storage.Get (subdomainKey (str "app1")) = (sampleContainer.ID, none) ∧
      (idCodec.jsonUnmarshal sampleContainer.ID).ID ∉
        (dockerWith sampleContainer []).Client.ListContainers.1.map APIContainers.ID ∧
      (idCodec.jsonUnmarshal sampleContainer.ID).ID ∈
        (dockerWith sampleContainer
          [{ ID := sampleContainer.ID, Image := [] }]).Client.ListContainers.1.map
            APIContainers.ID) ∧
      ∃ result,
        (Docker.List idCodec (dockerWith sampleContainer [{ ID := sampleContainer.ID, Image := [] }])
          (Docker.List idCodec (dockerWith sampleContainer []) registeredApp).app).result =
            .ret (some result, none) ∧
          idCodec.jsonUnmarshal sampleContainer.ID ∈ result :=
  ⟨⟨by decide, by decide, by decide, by decide⟩,
    ((List_is_read_only idCodec (dockerWith sampleContainer []) registeredApp).2 (str "app1")
      sampleContainer.ID (by decide) (by decide) (by decide)).2.2.2
      (dockerWith sampleContainer [{ ID := sampleContainer.ID, Image := [] }]) (by decide)⟩

/-- C9: the environment list `Launch` passes to the engine's create call is one
entry `<Env>=<value>` for each configured parameter whose name has a non-empty
value in `option`, in the order of the configured parameters and with nothing
for other parameters or other option keys, followed by the one entry
`SUBDOMAIN=<subdomain>`: every create call of a `Launch` carries this list,
and a `Launch` whose host configuration is set begins with such a call. -/
theorem Launch_environment (lib : Stdlib) (d : Docker) (app : App)
    (subdomain image name : GoString) (option : GoMap) :
    (∀ opt, Call.create opt ∈ (Docker.Launch lib d app subdomain image name option).calls →
        opt.Config.Env =
          ((d.cfg.Parameter.filter (fun v => decide (option.index v.Name ≠ []))).map
            (fun v => v.Env ++ str "=" ++ option.index v.Name)) ++
          [str "SUBDOMAIN=" ++ subdomain]) ∧
      (∀ hostConfig, d.cfg.HostConfig = some hostConfig →
        ∃ opt rest,
          (Docker.Launch lib d app subdomain image name option).calls = Call.create opt :: rest ∧
            opt.Config.Env =
              ((d.cfg.Parameter.filter (fun v => decide (option.index v.Name ≠ []))).map
                (fun v => v.Env ++ str "=" ++ option.index v.Name)) ++
              [str "SUBDOMAIN=" ++ subdomain]) := by
  have henv : ∀ opt, launchOptions d.cfg subdomain image name option = some opt →
      opt.Config.Env =
        ((d.cfg.Parameter.filter (fun v => decide (option.index v.Name ≠ []))).map
          (fun v => v.Env ++ str "=" ++ option.index v.Name)) ++
        [str "SUBDOMAIN=" ++ subdomain] := by
    intro opt hopt
    rw [launchOptions_env d.cfg subdomain image name option opt hopt]
    exact launchEnv_eq d.cfg.Parameter option subdomain
  constructor
  · intro opt hmem
    exact henv opt (Launch_create_calls lib d app subdomain image name option opt hmem)
  · intro hostConfig hhost
    obtain ⟨opt, hopt⟩ := launchOptions_of_hostConfig d.cfg subdomain image name option
      hostConfig hhost
    obtain ⟨rest, hrest⟩ := Launch_first_call lib d app subdomain image name option opt hopt
    exact ⟨opt, rest, hrest, henv opt hopt⟩

/-- C9 (witness): launching `app1` with `branch=main` on a fresh system. -/
theorem Launch_environment_witness :
    (dockerWith sampleContainer []).cfg.HostConfig = some { PortBindings := [] } ∧
      ∃ opt rest,
        (Docker.Launch idCodec (dockerWith sampleContainer []) freshApp (str "app1")
          (str "demo:latest") (str "app1-c1") [(str "branch", str "main")]).calls =
            Call.create opt :: rest ∧
          opt.Config.Env =
            (((dockerWith sampleContainer []).cfg.Parameter.filter
                (fun v => decide (GoMap.index [(str "branch", str "main")] v.Name ≠ []))).map
              (fun v => v.Env ++ str "=" ++ GoMap.index [(str "branch", str "main")] v.Name)) ++
            [str "SUBDOMAIN=" ++ str "app1"] :=
  ⟨by decide,
    (Launch_environment idCodec (dockerWith sampleContainer []) freshApp (str "app1")
      (str "demo:latest") (str "app1-c1") [(str "branch", str "main")]).2
      { PortBindings := [] } (by decide)⟩

/-- C10 (counterexample): the engine assigns an identifier of 11 bytes; building
the record faults on `container.ID[0:12]` and `Launch` faults with it. -/
theorem Launch_faults_on_short_id :
    elevenContainer.ID.length = 11 ∧
      launchInfo (some elevenContainer) (str "app1") (str "demo:latest") [] = none ∧
      (Docker.Launch idCodec (dockerWith elevenContainer []) freshApp (str "app1")
        (str "demo:latest") (str "app1-c1") []).result = .panicked := by
  refine ⟨by decide, by decide, by decide⟩

/-- C10 (as amended): in every `Launch` that gets past create and start, when
the inspected container has an identifier of at least 12 bytes and network
settings, the record is built without a fault, with `ShortID` the first 12
bytes of `ID`, `Launch` does not fault, and a `Launch` that returns success has
stored the `json.Marshal` encoding of that record; when the identifier has
fewer than 12 bytes the record is not built, `Launch` faults and the state is
as before. Every record `List` returns from a registry written only by
`Launch` is the decoding of the encoding of a record whose `ShortID` is the
first 12 bytes of its `ID`, so it has that property itself whenever decoding
gives back the encoded record. -/
theorem Launch_shortID_from_long_id (lib : Stdlib) (d : Docker) (app : App)
    (subdomain image name : GoString) (option : GoMap) (opt : CreateContainerOptions)
    (created container : Container)
    (hopt : launchOptions d.cfg subdomain image name option = some opt)
    (hcreate : d.Client.CreateContainer opt = (some created, none))
    (hstart : d.Client.StartContainer created.ID = none)
    (hinspect : (d.Client.InspectContainer created.ID).1 = some container) :
    (∀ networkSettings, 12 ≤ container.ID.length →
        container.NetworkSettings = some networkSettings →
        ∃ info, launchInfo (some container) subdomain image option = some info ∧
          info.ID = container.ID ∧ info.ShortID = container.ID.take 12 ∧
          (Docker.Launch lib d app subdomain image name option).result ≠ .panicked ∧
          ((Docker.Launch lib d app subdomain image name option).result = .ret none →
            (Docker.Launch lib d app subdomain image name option).app.Storage.Get
              (subdomainKey subdomain) = (lib.jsonMarshal info, none))) ∧
      (container.ID.length < 12 →
        launchInfo (some container) subdomain image option = none ∧
          (Docker.Launch lib d app subdomain image name option).result = .panicked ∧
          (Docker.Launch lib d app subdomain image name option).app = app) ∧
      (∀ (written : App) (reader : Docker) (result : List Information),
        WrittenByLaunch lib written →
        (Docker.List lib reader written).result = .ret (some result, none) →
        ∀ info ∈ result, ∃ built : Information,
          built.ShortID = built.ID.take 12 ∧
            info = lib.jsonUnmarshal (lib.jsonMarshal built) ∧
            (lib.jsonUnmarshal (lib.jsonMarshal built) = built →
              info.ShortID = info.ID.take 12)) := by
  refine ⟨?_, ?_, ?_⟩
  · intro networkSettings hlen hnet
    refine ⟨expectedRecord container networkSettings subdomain image option,
      launchInfo_of_long container networkSettings subdomain image option hlen hnet, rfl, rfl,
      ?_, ?_⟩
    · rw [Launch_past_start lib d app subdomain image name option opt created hopt hcreate hstart,
        hinspect, launchInfo_of_long container networkSettings subdomain image option hlen hnet]
      simp only
      rcases app.Storage.Set (subdomainKey subdomain)
        (lib.jsonMarshal (expectedRecord container networkSettings subdomain image option)) with
        ⟨e, ms1⟩
      cases e <;> simp
    · intro hok
      have hwrite : (app.Storage.Set (subdomainKey subdomain)
          (lib.jsonMarshal (expectedRecord container networkSettings subdomain image option))).1 =
            none := by
        rw [Launch_past_start lib d app subdomain image name option opt created hopt hcreate
          hstart, hinspect,
          launchInfo_of_long container networkSettings subdomain image option hlen hnet] at hok
        simp only at hok
        rcases hset : app.Storage.Set (subdomainKey subdomain)
          (lib.jsonMarshal (expectedRecord container networkSettings subdomain image option)) with
          ⟨e, ms1⟩
        rw [hset] at hok
        cases e with
        | none => rfl
        | some e => simp at hok
      rw [Launch_success lib d app subdomain image name option opt created container
        networkSettings hopt hcreate hstart hinspect hlen hnet hwrite]
      unfold MirageStorage.Get
      simp only [AddToSubdomainMap_records, lookup_replace]
  · intro hshort
    have hinfo := launchInfo_of_short container subdomain image option hshort
    refine ⟨hinfo, ?_⟩
    exact Launch_fault_past_start lib d app subdomain image name option opt created hopt hcreate
      hstart (by rw [hinspect]; exact hinfo)
  · intro written reader result hwritten hres info hinfo
    rw [list_result] at hres
    simp only [Outcome.ret.injEq, Prod.mk.injEq, Option.some.injEq, and_true] at hres
    rw [← hres] at hinfo
    obtain ⟨⟨s, _, data, hget, hdata⟩, _⟩ := (mem_reconciled lib written.Storage _ _).mp hinfo
    have hmem : (subdomainKey s, data) ∈ written.Storage.records := by
      unfold MirageStorage.Get at hget
      cases hl : written.Storage.records.lookup (subdomainKey s) with
      | none => rw [hl] at hget; simp at hget
      | some v =>
        rw [hl] at hget
        simp only [Prod.mk.injEq, and_true] at hget
        rw [← hget]
        exact mem_of_lookup _ _ _ hl
    obtain ⟨stored, hstored, hshort⟩ := writtenByLaunch_encoded lib written hwritten _ _ hmem
    refine ⟨stored, hshort, ?_, ?_⟩
    · rw [← hdata, hstored]
    · intro hback
      rw [← hdata, hstored, hback]
      exact hshort

/-- C10 (witness): `app1` is launched on a fresh system with `sampleContainer`,
whose identifier has 16 bytes, and with `tinyContainer`, whose identifier has
3; the registry written by the first `Launch` is then listed under a codec
that loses nothing. -/
theorem Launch_shortID_from_long_id_witness :
    (launchOptions (dockerWith sampleContainer []).cfg (str "app1") (str "demo:latest")
        (str "app1-c1") [] =
        some (sampleOptions (str "app1") (str "demo:latest") (str "app1-c1") []) ∧
      (dockerWith sampleContainer []).Client.CreateContainer
        (sampleOptions (str "app1") (str "demo:latest") (str "app1-c1") []) =
          (some sampleContainer, none) ∧
      (dockerWith sampleContainer []).Client.StartContainer sampleContainer.ID = none ∧
      ((dockerWith sampleContainer []).Client.InspectContainer sampleContainer.ID).1 =
        some sampleContainer ∧
      12 ≤ sampleContainer.ID.length ∧
      sampleContainer.NetworkSettings = some { IPAddress := str "10.0.0.2" } ∧
      tinyContainer.ID.length < 12) ∧
      (Docker.Launch losslessCodec (dockerWith sampleContainer []) freshApp (str "app1")
        (str "demo:latest") (str "app1-c1") []).result ≠ .panicked ∧
      (Docker.Launch losslessCodec (dockerWith tinyContainer []) freshApp (str "app1")
        (str "demo:latest") (str "app1-c1") []).result = .panicked ∧
      ∀ (reader : Docker) (result : List Information),
        (Docker.List losslessCodec reader
          (Docker.Launch losslessCodec (dockerWith sampleContainer []) freshApp (str "app1")
            (str "demo:latest") (str "app1-c1") []).app).result = .ret (some result, none) →
        ∀ info ∈ result, info.ShortID = info.ID.take 12 :=
  have hlong := Launch_shortID_from_long_id losslessCodec (dockerWith sampleContainer []) freshApp
    (str "app1") (str "demo:latest") (str "app1-c1") []
    (sampleOptions (str "app1") (str "demo:latest") (str "app1-c1") []) sampleContainer
    sampleContainer (by decide) (by decide) (by decide) (by decide)
  have hshort := Launch_shortID_from_long_id losslessCodec (dockerWith tinyContainer []) freshApp
    (str "app1") (str "demo:latest") (str "app1-c1") []
    (sampleOptions (str "app1") (str "demo:latest") (str "app1-c1") []) tinyContainer
    tinyContainer (by decide) (by decide) (by decide) (by decide)
  ⟨⟨by decide, by decide, by decide, by decide, by decide, by decide, by decide⟩,
    (hlong.1 { IPAddress := str "10.0.0.2" } (by decide) (by decide)).elim
      (fun _ h => h.2.2.2.1),
    (hshort.2.1 (by decide)).2.1,
    fun reader result hres info hinfo =>
      (hlong.2.2 _ reader result
        (WrittenByLaunch.launch _ _ _ _ _ _ (WrittenByLaunch.init freshApp rfl)) hres info
        hinfo).elim
        (fun built h => h.2.2 (losslessCodec_roundtrip built))⟩

end MirageECS
